import Mathlib

/-!
Driving data collector.

A shallow embedding of the `DrivingDataCollector` class of
`src/app/DashboardScreen.js`: the stream processor that turns position samples
into speeds, accelerations, distance, idle time, harsh-event counters and an eco
score.

Number model.

JavaScript numbers are IEEE-754 doubles.  A finite double is a rational number,
so finite values are held exactly in `ℚ` and the special values `Infinity`,
`-Infinity` and `NaN` are kept as constructors of `JSNum`, with the IEEE rules
for them (`x / 0`, `Infinity - Infinity`, comparisons with `NaN`, ...).
Rounding and overflow of finite arithmetic are not modelled, and neither is the
sign of zero: every divisor in the code is a difference of timestamps divided
by 1000, an array length, or the constant 300, none of which is `-0`.

Two results depend on the rounding of binary64 arithmetic: the value of the eco
score when both penalties are at their cap, and the total of the idle time
accrued over several samples.  For them `updateIdleTime` and
`calculateEcoScore` are embedded a second time, in the namespace `Rounded`, with
every arithmetic result passed through a rounding function `fl`; `roundDouble`
is the round-to-nearest, ties-to-even rounding to 53 significant bits, and the
identity function gives the exact functions back.

Timestamps are millisecond counts and coordinates are degrees, both finite, so
they are rationals; `idleTime` and `distance` are only ever assigned sums of
differences of timestamps and of great-circle distances, so they are rationals
as well.  Values that come out of a division by an elapsed time (`speeds`,
`accelerations`, `previousSpeed`) are `JSNum`.

The great-circle distance comes from the external package `haversine`; it is a
parameter `haversine : GeoPoint → GeoPoint → ℚ` of the functions that use it.
-/

set_option autoImplicit false
set_option linter.unusedVariables false

namespace DrivingData

/-! ## JavaScript numbers and values -/

/-- A JavaScript number: a finite value, `Infinity`, `-Infinity` or `NaN`. -/
inductive JSNum where
  | fin (q : ℚ)
  | pinf
  | ninf
  | nan
  deriving DecidableEq

namespace JSNum

/-- Unary minus. -/
def neg : JSNum → JSNum
  | fin q => fin (-q)
  | pinf => ninf
  | ninf => pinf
  | nan => nan

/-- The operator `+` on numbers. -/
def add : JSNum → JSNum → JSNum
  | nan, _ => nan
  | _, nan => nan
  | pinf, ninf => nan
  | ninf, pinf => nan
  | pinf, _ => pinf
  | _, pinf => pinf
  | ninf, _ => ninf
  | _, ninf => ninf
  | fin a, fin b => fin (a + b)

/-- The operator `-` on numbers. -/
def sub (a b : JSNum) : JSNum :=
  add a (neg b)

/-- An infinity of the sign of `s * t`, for `s` and `t` of known sign. -/
def signedInf (positive : Bool) : JSNum :=
  if positive then pinf else ninf

/-- The operator `*` on numbers. -/
def mul : JSNum → JSNum → JSNum
  | nan, _ => nan
  | _, nan => nan
  | fin a, fin b => fin (a * b)
  | fin a, pinf => if a = 0 then nan else signedInf (decide (0 < a))
  | fin a, ninf => if a = 0 then nan else signedInf (decide (a < 0))
  | pinf, fin b => if b = 0 then nan else signedInf (decide (0 < b))
  | ninf, fin b => if b = 0 then nan else signedInf (decide (b < 0))
  | pinf, pinf => pinf
  | ninf, ninf => pinf
  | pinf, ninf => ninf
  | ninf, pinf => ninf

/-- The operator `/` on numbers; a zero divisor is `+0`. -/
def div : JSNum → JSNum → JSNum
  | nan, _ => nan
  | _, nan => nan
  | fin a, fin b =>
    if b = 0 then
      (if a = 0 then nan else signedInf (decide (0 < a)))
    else fin (a / b)
  | fin _, pinf => fin 0
  | fin _, ninf => fin 0
  | pinf, fin b => signedInf (decide (0 ≤ b))
  | ninf, fin b => signedInf (decide (b < 0))
  | pinf, pinf => nan
  | pinf, ninf => nan
  | ninf, pinf => nan
  | ninf, ninf => nan

/-- The operator `<` on numbers; false when either side is `NaN`. -/
def lt : JSNum → JSNum → Bool
  | nan, _ => false
  | _, nan => false
  | fin a, fin b => decide (a < b)
  | fin _, pinf => true
  | fin _, ninf => false
  | pinf, _ => false
  | ninf, ninf => false
  | ninf, _ => true

/-- The operator `>` on numbers. -/
def gt (a b : JSNum) : Bool :=
  lt b a

/-- Truthiness of a number: everything but `0` and `NaN`. -/
def truthy : JSNum → Bool
  | fin q => decide (q ≠ 0)
  | pinf => true
  | ninf => true
  | nan => false

/-- `Math.max` of two numbers. -/
def max2 (a b : JSNum) : JSNum :=
  match a, b with
  | nan, _ => nan
  | _, nan => nan
  | a, b => if lt a b then b else a

/-- `Math.abs`. -/
def abs : JSNum → JSNum
  | fin q => fin |q|
  | pinf => pinf
  | ninf => pinf
  | nan => nan

/-- The number is neither `NaN` nor an infinity. -/
def isFinite : JSNum → Bool
  | fin _ => true
  | _ => false

end JSNum

/-- A value a provider field can hold: a number, `null` or `undefined`. -/
inductive JSVal where
  | num (x : JSNum)
  | null
  | undefined
  deriving DecidableEq

namespace JSVal

/-- Truthiness of a value. -/
def truthy : JSVal → Bool
  | num x => x.truthy
  | null => false
  | undefined => false

/-- The numeric coercion applied by an arithmetic operator. -/
def toNumber : JSVal → JSNum
  | num x => x
  | null => JSNum.fin 0
  | undefined => JSNum.nan

/-- The expression `v || 0` whose result is used as a number. -/
def orZero (v : JSVal) : JSNum :=
  if v.truthy then v.toNumber else JSNum.fin 0

end JSVal

/-- `xs.reduce((a, b) => a + b, 0)`. -/
def sumReduce (xs : List JSNum) : JSNum :=
  xs.foldl JSNum.add (JSNum.fin 0)

/-- `Math.max(...xs)`, which is `-Infinity` for no argument. -/
def mathMax (xs : List JSNum) : JSNum :=
  xs.foldl JSNum.max2 JSNum.ninf

/-- `xs[xs.length - 1]`, `undefined` on an empty array. -/
def lastElem (xs : List JSNum) : JSVal :=
  match xs.getLast? with
  | some x => JSVal.num x
  | none => JSVal.undefined

/-! ## State -/

/-- The object `{ latitude, longitude }`. -/
structure GeoPoint where
  latitude : ℚ
  longitude : ℚ
  deriving DecidableEq

/-- The argument of `handleLocationUpdate`: the fields read from
`location.coords`, and the value `Date.now()` has at the call. -/
structure Sample where
  latitude : ℚ
  longitude : ℚ
  speed : JSVal
  timestamp : Option ℚ
  now : ℚ

/-- The field `this.drivingData`. -/
structure Data where
  speeds : List JSNum
  accelerations : List JSNum
  coordinates : List GeoPoint
  timestamps : List ℚ
  distance : ℚ
  idleTime : ℚ
  lastIdleCheck : Option ℚ
  isIdle : Bool
  harshAccelerations : Nat
  harshBraking : Nat

/-- The numeric state of a collector.  `previousSpeed` starts at `0` and is only
ever assigned a number, so it is never `null`. -/
structure Collector where
  previousLocation : Option GeoPoint
  previousSpeed : JSNum
  previousTimestamp : Option ℚ
  drivingData : Data

/-- The state set up by `constructor()`. -/
def Collector.fresh : Collector where
  previousLocation := none
  previousSpeed := JSNum.fin 0
  previousTimestamp := none
  drivingData :=
    { speeds := []
      accelerations := []
      coordinates := []
      timestamps := []
      distance := 0
      idleTime := 0
      lastIdleCheck := none
      isIdle := false
      harshAccelerations := 0
      harshBraking := 0 }

/-! ## Eco score -/

/-- The method `calculateEcoScore()`. -/
def calculateEcoScore (d : Data) : ℚ :=
  let avgSpeed := JSNum.div (sumReduce d.speeds) (JSNum.fin d.speeds.length)
  let avgAcceleration :=
    JSNum.abs (JSNum.div (sumReduce d.accelerations) (JSNum.fin d.accelerations.length))
  let idleTimePenalty := min (d.idleTime / 300) 0.3
  let harshEventsPenalty := min (((d.harshAccelerations + d.harshBraking : ℕ) : ℚ) * 0.05) 0.3
  let ecoScore : ℚ := 1.0
  let ecoScore := ecoScore - idleTimePenalty
  let ecoScore := ecoScore - harshEventsPenalty
  max 0 (min 1 ecoScore)

/-! ## Ingestion of position samples -/

/-- The method `updateIdleTime(currentSpeed, currentTimestamp)`, on the field
`drivingData` it mutates.  `lastIdleCheck` is truthy when it is neither `null`
nor `0`. -/
def updateIdleTime (d : Data) (currentSpeed : JSNum) (currentTimestamp : ℚ) : Data :=
  if JSNum.lt currentSpeed (JSNum.fin 3) then
    if !d.isIdle then
      { d with isIdle := true, lastIdleCheck := some currentTimestamp }
    else
      match d.lastIdleCheck with
      | some lastIdleCheck =>
        if lastIdleCheck ≠ 0 then
          let idleDuration := (currentTimestamp - lastIdleCheck) / 1000
          { d with idleTime := d.idleTime + idleDuration, lastIdleCheck := some currentTimestamp }
        else d
      | none => d
  else
    { d with isIdle := false, lastIdleCheck := none }

/-- The expression `timestamp || Date.now()`. -/
def currentTimestampOf (location : Sample) : ℚ :=
  match location.timestamp with
  | some t => if t ≠ 0 then t else location.now
  | none => location.now

/-- The point `{ latitude, longitude }` of a sample. -/
def Sample.point (location : Sample) : GeoPoint :=
  ⟨location.latitude, location.longitude⟩

/-- The numeric value of `this.previousTimestamp` in a subtraction: `null` is `0`. -/
def timestampNumber : Option ℚ → ℚ
  | some t => t
  | none => 0

/-- The expression `(currentTimestamp - this.previousTimestamp) / 1000`. -/
def timeDiffOf (c : Collector) (location : Sample) : ℚ :=
  (currentTimestampOf location - timestampNumber c.previousTimestamp) / 1000

/-- The value of `currentSpeed` pushed to `speeds` (lines 69 to 80): the provider
speed, or the speed derived from the positions when `!speed` holds and a previous
location exists, times 3.6. -/
def currentSpeedOf (haversine : GeoPoint → GeoPoint → ℚ) (c : Collector)
    (location : Sample) : JSNum :=
  let currentSpeed : JSNum :=
    if !location.speed.truthy then
      match c.previousLocation with
      | some previousLocation =>
        let distance := haversine previousLocation location.point
        let timeDiff := timeDiffOf c location
        JSNum.div (JSNum.fin distance) (JSNum.fin timeDiff)
      | none => location.speed.toNumber
    else location.speed.toNumber
  JSNum.mul currentSpeed (JSNum.fin 3.6)

/-- The value of `acceleration` (lines 84 and 85). -/
def accelerationOf (c : Collector) (location : Sample) (currentSpeed : JSNum) : JSNum :=
  let timeDiff := timeDiffOf c location
  JSNum.div (JSNum.sub currentSpeed c.previousSpeed) (JSNum.fin timeDiff)

/-- The block of lines 82 to 96: push the acceleration and count a harsh event,
when a previous timestamp exists. -/
def recordAcceleration (c : Collector) (location : Sample) (currentSpeed : JSNum)
    (d : Data) : Data :=
  match c.previousTimestamp with
  | some _ =>
    let acceleration := accelerationOf c location currentSpeed
    let d := { d with accelerations := d.accelerations ++ [acceleration] }
    if JSNum.gt acceleration (JSNum.fin 3.5) then
      { d with harshAccelerations := d.harshAccelerations + 1 }
    else if JSNum.lt acceleration (JSNum.fin (-3.5)) then
      { d with harshBraking := d.harshBraking + 1 }
    else d
  | none => d

/-- The block of lines 98 to 104: add the segment to `distance` when a previous
location exists. -/
def recordDistance (haversine : GeoPoint → GeoPoint → ℚ) (c : Collector)
    (location : Sample) (d : Data) : Data :=
  match c.previousLocation with
  | some previousLocation =>
    let segmentDistance := haversine previousLocation location.point
    { d with distance := d.distance + segmentDistance }
  | none => d

/-- The method `handleLocationUpdate(location)`. -/
def handleLocationUpdate (haversine : GeoPoint → GeoPoint → ℚ) (c : Collector)
    (location : Sample) : Collector :=
  let currentTimestamp := currentTimestampOf location
  let d := c.drivingData
  let d := { d with coordinates := d.coordinates ++ [location.point] }
  let d := { d with timestamps := d.timestamps ++ [currentTimestamp] }
  let currentSpeed := currentSpeedOf haversine c location
  let d := { d with speeds := d.speeds ++ [currentSpeed] }
  let d := recordAcceleration c location currentSpeed d
  let d := recordDistance haversine c location d
  let d := updateIdleTime d currentSpeed currentTimestamp
  { previousLocation := some location.point
    previousSpeed := currentSpeed
    previousTimestamp := some currentTimestamp
    drivingData := d }

/-- The collector after a sequence of position samples, oldest first. -/
def ingest (haversine : GeoPoint → GeoPoint → ℚ) (c : Collector)
    (samples : List Sample) : Collector :=
  samples.foldl (handleLocationUpdate haversine) c

/-- A sequence of calls of `updateIdleTime`, oldest first. -/
def idleRun (d : Data) (calls : List (JSNum × ℚ)) : Data :=
  calls.foldl (fun d call => updateIdleTime d call.1 call.2) d

/-! ## Snapshot -/

/-- The object returned by `getDrivingMetrics()`. -/
structure Metrics where
  currentSpeed : JSNum
  averageSpeed : JSNum
  maxSpeed : JSNum
  distance : ℚ
  idleTime : ℚ
  acceleration : JSNum
  averageAcceleration : JSNum
  ecoScore : ℚ
  harshAccelerations : Nat
  harshBraking : Nat

/-- The expression `xs.reduce((a, b) => a + b, 0) / xs.length`. -/
def average (xs : List JSNum) : JSNum :=
  JSNum.div (sumReduce xs) (JSNum.fin xs.length)

/-- The method `getDrivingMetrics()`. -/
def getDrivingMetrics (c : Collector) : Metrics :=
  let speeds := c.drivingData.speeds
  let accelerations := c.drivingData.accelerations
  { currentSpeed := (lastElem speeds).orZero
    averageSpeed := (JSVal.num (average speeds)).orZero
    maxSpeed := mathMax (speeds ++ [JSNum.fin 0])
    distance := c.drivingData.distance
    idleTime := c.drivingData.idleTime
    acceleration := (lastElem accelerations).orZero
    averageAcceleration := (JSVal.num (average accelerations)).orZero
    ecoScore := calculateEcoScore c.drivingData
    harshAccelerations := c.drivingData.harshAccelerations
    harshBraking := c.drivingData.harshBraking }

/-! ## The eco score as the specification words it -/

/-- The value `clamp(x, lo, hi)`. -/
def clamp (x lo hi : ℚ) : ℚ :=
  max lo (min hi x)

/-- The score of the specification:
`clamp(1.0 - idle_penalty - harsh_penalty, 0.0, 1.0)` with
`idle_penalty = min(idle_elapsed_s / 300, 0.3)` and
`harsh_penalty = min((harsh_accel_count + harsh_brake_count) * 0.05, 0.3)`. -/
def ecoScoreSpec (idleTime : ℚ) (harshAccelerations harshBraking : Nat) : ℚ :=
  clamp (1 - min (idleTime / 300) 0.3
    - min (((harshAccelerations : ℚ) + (harshBraking : ℚ)) * 0.05) 0.3) 0 1

/-- The sum `d(p1,p2) + d(p2,p3) + ...` along a path. -/
def pathLength (haversine : GeoPoint → GeoPoint → ℚ) : List GeoPoint → ℚ
  | [] => 0
  | [_] => 0
  | p :: q :: rest => haversine p q + pathLength haversine (q :: rest)

/-- A state with five minutes of idle time and six harsh events, nothing else
recorded. -/
def saturatedData : Data where
  speeds := []
  accelerations := []
  coordinates := []
  timestamps := []
  distance := 0
  idleTime := 300
  lastIdleCheck := none
  isIdle := false
  harshAccelerations := 3
  harshBraking := 3

/-! ## Example inputs -/

/-- A stand-in for the great-circle distance in examples: 111190 metres per
degree of latitude and of longitude, which is the haversine distance, to five
digits, along the equator and along a meridian. -/
def gridDistance (a b : GeoPoint) : ℚ :=
  111190 * (|a.latitude - b.latitude| + |a.longitude - b.longitude|)

/-- A sample at longitude `lon` degrees on the equator, with provider speed
`speed` and timestamp `t`. -/
def sampleAt (lon : ℚ) (speed : JSVal) (t : ℚ) : Sample where
  latitude := 0
  longitude := lon
  speed := speed
  timestamp := some t
  now := t

/-- The acceleration as the specification words it:
`(current_speed_kmh - previous_speed_kmh) / elapsed_seconds`. -/
def accelerationSpec (currentSpeedKmh previousSpeedKmh : JSNum) (elapsedSeconds : ℚ) :
    JSNum :=
  JSNum.div (JSNum.sub currentSpeedKmh previousSpeedKmh) (JSNum.fin elapsedSeconds)

/-! ## Motion samples -/

/-- The argument of `handleAccelerometerUpdate`: the fields `x`, `y`, `z`. -/
structure MotionSample where
  x : ℚ
  y : ℚ
  z : ℚ

/-- The method `handleAccelerometerUpdate(accelerometerData)` of
`src/app/DashboardScreen.js`: the magnitude is computed and dropped, the push
being commented out.  `mathSqrt` stands for `Math.sqrt`. -/
def handleAccelerometerUpdate (mathSqrt : ℚ → ℚ) (c : Collector)
    (accelerometerData : MotionSample) : Collector :=
  let accelerationMagnitude :=
    mathSqrt (accelerometerData.x * accelerometerData.x
      + accelerometerData.y * accelerometerData.y
      + accelerometerData.z * accelerometerData.z)
  c

/-- A sample pushed to the collector by one of the two subscriptions. -/
inductive Event where
  | position (location : Sample)
  | motion (accelerometerData : MotionSample)

/-- The callback run on an event. -/
def handleEvent (haversine : GeoPoint → GeoPoint → ℚ) (mathSqrt : ℚ → ℚ) (c : Collector) :
    Event → Collector
  | Event.position location => handleLocationUpdate haversine c location
  | Event.motion accelerometerData => handleAccelerometerUpdate mathSqrt c accelerometerData

/-- The collector after a sequence of events, oldest first. -/
def processEvents (haversine : GeoPoint → GeoPoint → ℚ) (mathSqrt : ℚ → ℚ) (c : Collector)
    (events : List Event) : Collector :=
  events.foldl (handleEvent haversine mathSqrt) c

/-- The position samples of a sequence of events, in order. -/
def positionsOf : List Event → List Sample
  | [] => []
  | Event.position location :: rest => location :: positionsOf rest
  | Event.motion _ :: rest => positionsOf rest

/-! ## The copy of the collector in `src/utils/DrivingDataCollector.js` -/

namespace Utils

/-- The field `this.drivingData` of the utility copy: no harsh counters. -/
structure Data where
  speeds : List JSNum
  accelerations : List JSNum
  coordinates : List GeoPoint
  timestamps : List ℚ
  distance : ℚ
  idleTime : ℚ
  lastIdleCheck : Option ℚ
  isIdle : Bool

/-- The numeric state of a collector of the utility copy. -/
structure Collector where
  previousLocation : Option GeoPoint
  previousSpeed : JSNum
  previousTimestamp : Option ℚ
  drivingData : Data

/-- The state set up by `constructor()`. -/
def Collector.fresh : Collector where
  previousLocation := none
  previousSpeed := JSNum.fin 0
  previousTimestamp := none
  drivingData :=
    { speeds := []
      accelerations := []
      coordinates := []
      timestamps := []
      distance := 0
      idleTime := 0
      lastIdleCheck := none
      isIdle := false }

/-- The method `updateIdleTime(currentSpeed, currentTimestamp)` of the utility
copy. -/
def updateIdleTime (d : Data) (currentSpeed : JSNum) (currentTimestamp : ℚ) : Data :=
  if JSNum.lt currentSpeed (JSNum.fin 3) then
    if !d.isIdle then
      { d with isIdle := true, lastIdleCheck := some currentTimestamp }
    else
      match d.lastIdleCheck with
      | some lastIdleCheck =>
        if lastIdleCheck ≠ 0 then
          let idleDuration := (currentTimestamp - lastIdleCheck) / 1000
          { d with idleTime := d.idleTime + idleDuration, lastIdleCheck := some currentTimestamp }
        else d
      | none => d
  else
    { d with isIdle := false, lastIdleCheck := none }

/-- The method `handleLocationUpdate(location)` of the utility copy. -/
def handleLocationUpdate (haversine : GeoPoint → GeoPoint → ℚ) (c : Collector)
    (location : Sample) : Collector :=
  let currentTimestamp := currentTimestampOf location
  let d := c.drivingData
  let d := { d with coordinates := d.coordinates ++ [location.point] }
  let d := { d with timestamps := d.timestamps ++ [currentTimestamp] }
  let currentSpeed : JSNum :=
    if !location.speed.truthy then
      match c.previousLocation with
      | some previousLocation =>
        let distance := haversine previousLocation location.point
        let timeDiff := (currentTimestamp - timestampNumber c.previousTimestamp) / 1000
        JSNum.div (JSNum.fin distance) (JSNum.fin timeDiff)
      | none => location.speed.toNumber
    else location.speed.toNumber
  let currentSpeed := JSNum.mul currentSpeed (JSNum.fin 3.6)
  let d := { d with speeds := d.speeds ++ [currentSpeed] }
  let d :=
    match c.previousTimestamp with
    | some _ =>
      let timeDiff := (currentTimestamp - timestampNumber c.previousTimestamp) / 1000
      let acceleration := JSNum.div (JSNum.sub currentSpeed c.previousSpeed) (JSNum.fin timeDiff)
      { d with accelerations := d.accelerations ++ [acceleration] }
    | none => d
  let d :=
    match c.previousLocation with
    | some previousLocation =>
      let segmentDistance := haversine previousLocation location.point
      { d with distance := d.distance + segmentDistance }
    | none => d
  let d := updateIdleTime d currentSpeed currentTimestamp
  { previousLocation := some location.point
    previousSpeed := currentSpeed
    previousTimestamp := some currentTimestamp
    drivingData := d }

/-- The method `handleAccelerometerUpdate(accelerometerData)` of the utility
copy: the magnitude is pushed to `accelerations`. -/
def handleAccelerometerUpdate (mathSqrt : ℚ → ℚ) (c : Collector)
    (accelerometerData : MotionSample) : Collector :=
  let accelerationMagnitude :=
    mathSqrt (accelerometerData.x * accelerometerData.x
      + accelerometerData.y * accelerometerData.y
      + accelerometerData.z * accelerometerData.z)
  { c with drivingData :=
      { c.drivingData with
        accelerations := c.drivingData.accelerations ++ [JSNum.fin accelerationMagnitude] } }

/-- The collector of the utility copy after a sequence of position samples,
oldest first. -/
def ingest (haversine : GeoPoint → GeoPoint → ℚ) (c : Collector)
    (samples : List Sample) : Collector :=
  samples.foldl (handleLocationUpdate haversine) c

end Utils

/-- The fields the two copies of `drivingData` have in common. -/
def Data.common (d : Data) : Utils.Data where
  speeds := d.speeds
  accelerations := d.accelerations
  coordinates := d.coordinates
  timestamps := d.timestamps
  distance := d.distance
  idleTime := d.idleTime
  lastIdleCheck := d.lastIdleCheck
  isIdle := d.isIdle

/-- The fields the two copies of the collector have in common. -/
def Collector.common (c : Collector) : Utils.Collector where
  previousLocation := c.previousLocation
  previousSpeed := c.previousSpeed
  previousTimestamp := c.previousTimestamp
  drivingData := c.drivingData.common

/-- The maximum of a sequence as the specification words it: an element of the
sequence that no element exceeds. -/
def IsMaximumOf (m : JSNum) (xs : List JSNum) : Prop :=
  m ∈ xs ∧ ∀ v ∈ xs, JSNum.lt m v = false

instance (m : JSNum) (xs : List JSNum) : Decidable (IsMaximumOf m xs) := by
  unfold IsMaximumOf
  infer_instance

/-! ## Binary64 rounding -/

/-- The integer nearest to `x`, the even one on a tie. -/
def roundHalfEven (x : ℚ) : ℤ :=
  if x - ⌊x⌋ < 1 / 2 then ⌊x⌋
  else if 1 / 2 < x - ⌊x⌋ then ⌊x⌋ + 1
  else if ⌊x⌋ % 2 = 0 then ⌊x⌋ else ⌊x⌋ + 1

/-- The binary64 value nearest to `q`, ties to even: a significand of 53 bits
times a power of two.  Overflow and subnormal values are not modelled. -/
def roundDouble (q : ℚ) : ℚ :=
  if q = 0 then 0
  else (roundHalfEven (q / 2 ^ (Int.log 2 |q| - 52)) : ℚ) * 2 ^ (Int.log 2 |q| - 52)

namespace Rounded

/-- The method `updateIdleTime(currentSpeed, currentTimestamp)` with the result
of the subtraction, of the division and of the addition rounded by `fl`. -/
def updateIdleTime (fl : ℚ → ℚ) (d : Data) (currentSpeed : JSNum) (currentTimestamp : ℚ) :
    Data :=
  if JSNum.lt currentSpeed (JSNum.fin 3) then
    if !d.isIdle then
      { d with isIdle := true, lastIdleCheck := some currentTimestamp }
    else
      match d.lastIdleCheck with
      | some lastIdleCheck =>
        if lastIdleCheck ≠ 0 then
          let idleDuration := fl (fl (currentTimestamp - lastIdleCheck) / 1000)
          { d with
            idleTime := fl (d.idleTime + idleDuration)
            lastIdleCheck := some currentTimestamp }
        else d
      | none => d
  else
    { d with isIdle := false, lastIdleCheck := none }

/-- A sequence of calls of `updateIdleTime`, oldest first, with rounding. -/
def idleRun (fl : ℚ → ℚ) (d : Data) (calls : List (JSNum × ℚ)) : Data :=
  calls.foldl (fun d call => updateIdleTime fl d call.1 call.2) d

/-- The method `calculateEcoScore()` with every arithmetic result rounded by
`fl`; the literals `0.3` and `0.05` are the values `fl 0.3` and `fl 0.05`. -/
def calculateEcoScore (fl : ℚ → ℚ) (d : Data) : ℚ :=
  let avgSpeed := JSNum.div (sumReduce d.speeds) (JSNum.fin d.speeds.length)
  let avgAcceleration :=
    JSNum.abs (JSNum.div (sumReduce d.accelerations) (JSNum.fin d.accelerations.length))
  let idleTimePenalty := min (fl (d.idleTime / 300)) (fl 0.3)
  let harshEventsPenalty :=
    min (fl (fl ((d.harshAccelerations + d.harshBraking : ℕ) : ℚ) * fl 0.05)) (fl 0.3)
  let ecoScore : ℚ := 1.0
  let ecoScore := fl (ecoScore - idleTimePenalty)
  let ecoScore := fl (ecoScore - harshEventsPenalty)
  max 0 (min 1 ecoScore)

end Rounded

/-- The time deltas between consecutive timestamps, in seconds, each the
rounded quotient by 1000 of the rounded difference. -/
def idleDeltas (fl : ℚ → ℚ) : List ℚ → List ℚ
  | [] => []
  | [_] => []
  | t :: u :: rest => fl (fl (u - t) / 1000) :: idleDeltas fl (u :: rest)

/-- The sum of `deltas` added to `start` one at a time, in order, each sum
rounded. -/
def accrue (fl : ℚ → ℚ) (start : ℚ) (deltas : List ℚ) : ℚ :=
  deltas.foldl (fun total delta => fl (total + delta)) start

/-- The calls of `updateIdleTime` at speed 0 numbered `start`, `start + 1`, ...,
`n` of them, one second apart: call `i` has timestamp `1000 * i`. -/
def tickCalls (start : ℕ) : ℕ → List (JSNum × ℚ)
  | 0 => []
  | n + 1 => (JSNum.fin 0, ((1000 * start : ℕ) : ℚ)) :: tickCalls (start + 1) n

/-! ## Theorems -/

/-- C1: the eco score of every collector state lies in the interval [0, 1]. -/
theorem calculateEcoScore_bounds (d : Data) :
    0 ≤ calculateEcoScore d ∧ calculateEcoScore d ≤ 1 := by
  unfold calculateEcoScore
  refine ⟨le_max_left _ _, max_le (by norm_num) (min_le_left _ _)⟩

/-- C2: the eco score is the clamp of one minus the two capped penalties, so it
depends on `idleTime`, `harshAccelerations` and `harshBraking` alone. -/
theorem calculateEcoScore_eq_spec :
    (∀ d : Data, calculateEcoScore d
        = ecoScoreSpec d.idleTime d.harshAccelerations d.harshBraking) ∧
    (∀ d e : Data, d.idleTime = e.idleTime →
        d.harshAccelerations = e.harshAccelerations → d.harshBraking = e.harshBraking →
        calculateEcoScore d = calculateEcoScore e) := by
  have h : ∀ d : Data, calculateEcoScore d
      = ecoScoreSpec d.idleTime d.harshAccelerations d.harshBraking := by
    intro d
    simp only [calculateEcoScore, ecoScoreSpec, clamp, Nat.cast_add]
    norm_num
  refine ⟨h, ?_⟩
  intro d e h1 h2 h3
  rw [h d, h e, h1, h2, h3]

/-- C3, as stated, fails: with `idleTime = 300`, three harsh accelerations and
three harsh brakings the eco score, 0.4 in exact arithmetic, is not 0. -/
theorem calculateEcoScore_saturated_ne_zero :
    300 ≤ saturatedData.idleTime ∧
    6 ≤ saturatedData.harshAccelerations + saturatedData.harshBraking ∧
    calculateEcoScore saturatedData = 2 / 5 ∧
    calculateEcoScore saturatedData ≠ 0 := by
  have h : calculateEcoScore saturatedData = 2 / 5 := by
    simp only [calculateEcoScore, saturatedData]
    norm_num
  refine ⟨by simp [saturatedData], by simp [saturatedData], h, ?_⟩
  rw [h]
  norm_num

/-- In exact arithmetic, once `idleTime` has reached 300 and the harsh events
number six or more, both penalties sit at their cap 0.3 and the eco score is
`1 - 0.3 - 0.3 = 0.4`. -/
theorem calculateEcoScore_saturated (d : Data) (hidle : 300 ≤ d.idleTime)
    (hharsh : 6 ≤ d.harshAccelerations + d.harshBraking) :
    calculateEcoScore d = 0.4 := by
  have h1 : min (d.idleTime / 300) (0.3 : ℚ) = 0.3 := by
    apply min_eq_right
    rw [le_div_iff₀ (by norm_num)]
    norm_num
    linarith
  have hq : (6 : ℚ) ≤ ((d.harshAccelerations + d.harshBraking : ℕ) : ℚ) := by
    exact_mod_cast hharsh
  have h2 : min (((d.harshAccelerations + d.harshBraking : ℕ) : ℚ) * 0.05) (0.3 : ℚ) = 0.3 := by
    apply min_eq_right
    norm_num at hq ⊢
    linarith
  simp only [calculateEcoScore, h1, h2]
  norm_num

/-- C4: the snapshot of a freshly constructed collector has every field zero and
an eco score of one; both averages are the quotient `0 / 0`, which is `NaN`, and
`|| 0` turns it into zero, so every numeric field is finite. -/
theorem getDrivingMetrics_fresh :
    (getDrivingMetrics Collector.fresh).currentSpeed = JSNum.fin 0 ∧
    (getDrivingMetrics Collector.fresh).averageSpeed = JSNum.fin 0 ∧
    (getDrivingMetrics Collector.fresh).maxSpeed = JSNum.fin 0 ∧
    (getDrivingMetrics Collector.fresh).distance = 0 ∧
    (getDrivingMetrics Collector.fresh).idleTime = 0 ∧
    (getDrivingMetrics Collector.fresh).acceleration = JSNum.fin 0 ∧
    (getDrivingMetrics Collector.fresh).averageAcceleration = JSNum.fin 0 ∧
    (getDrivingMetrics Collector.fresh).harshAccelerations = 0 ∧
    (getDrivingMetrics Collector.fresh).harshBraking = 0 ∧
    (getDrivingMetrics Collector.fresh).ecoScore = 1 ∧
    average Collector.fresh.drivingData.speeds = JSNum.nan ∧
    average Collector.fresh.drivingData.accelerations = JSNum.nan ∧
    (getDrivingMetrics Collector.fresh).currentSpeed.isFinite = true ∧
    (getDrivingMetrics Collector.fresh).averageSpeed.isFinite = true ∧
    (getDrivingMetrics Collector.fresh).maxSpeed.isFinite = true ∧
    (getDrivingMetrics Collector.fresh).acceleration.isFinite = true ∧
    (getDrivingMetrics Collector.fresh).averageAcceleration.isFinite = true := by
  have hav : average [] = JSNum.nan := by
    simp [average, sumReduce, JSNum.div]
  have heco : calculateEcoScore Collector.fresh.drivingData = 1 := by
    simp only [calculateEcoScore, Collector.fresh]
    norm_num
  have hmax : mathMax ([] ++ [JSNum.fin 0]) = JSNum.fin 0 := by
    simp [mathMax, JSNum.max2, JSNum.lt]
  have hsp : Collector.fresh.drivingData.speeds = [] := rfl
  have hac : Collector.fresh.drivingData.accelerations = [] := rfl
  simp only [getDrivingMetrics, hsp, hac, hav, hmax, heco]
  refine ⟨?_, ?_, ?_, ?_, ?_, ?_, ?_, ?_, ?_, ?_, ?_, ?_, ?_, ?_, ?_, ?_, ?_⟩ <;>
    simp [lastElem, JSVal.orZero, JSVal.truthy, JSVal.toNumber, JSNum.truthy,
      JSNum.isFinite, Collector.fresh]

/-! ### Frame lemmas for one ingestion -/

theorem updateIdleTime_distance (d : Data) (v : JSNum) (t : ℚ) :
    (updateIdleTime d v t).distance = d.distance := by
  unfold updateIdleTime
  split_ifs <;> try rfl
  split <;> [split_ifs <;> rfl; rfl]

theorem updateIdleTime_speeds (d : Data) (v : JSNum) (t : ℚ) :
    (updateIdleTime d v t).speeds = d.speeds := by
  unfold updateIdleTime
  split_ifs <;> try rfl
  split <;> [split_ifs <;> rfl; rfl]

theorem updateIdleTime_accelerations (d : Data) (v : JSNum) (t : ℚ) :
    (updateIdleTime d v t).accelerations = d.accelerations := by
  unfold updateIdleTime
  split_ifs <;> try rfl
  split <;> [split_ifs <;> rfl; rfl]

theorem updateIdleTime_harshAccelerations (d : Data) (v : JSNum) (t : ℚ) :
    (updateIdleTime d v t).harshAccelerations = d.harshAccelerations := by
  unfold updateIdleTime
  split_ifs <;> try rfl
  split <;> [split_ifs <;> rfl; rfl]

theorem updateIdleTime_harshBraking (d : Data) (v : JSNum) (t : ℚ) :
    (updateIdleTime d v t).harshBraking = d.harshBraking := by
  unfold updateIdleTime
  split_ifs <;> try rfl
  split <;> [split_ifs <;> rfl; rfl]

theorem recordDistance_distance (haversine : GeoPoint → GeoPoint → ℚ) (c : Collector)
    (x : Sample) (d : Data) :
    (recordDistance haversine c x d).distance =
      match c.previousLocation with
      | some p => d.distance + haversine p x.point
      | none => d.distance := by
  unfold recordDistance
  cases c.previousLocation <;> rfl

theorem recordDistance_speeds (haversine : GeoPoint → GeoPoint → ℚ) (c : Collector)
    (x : Sample) (d : Data) :
    (recordDistance haversine c x d).speeds = d.speeds := by
  unfold recordDistance
  cases c.previousLocation <;> rfl

theorem recordDistance_accelerations (haversine : GeoPoint → GeoPoint → ℚ)
    (c : Collector) (x : Sample) (d : Data) :
    (recordDistance haversine c x d).accelerations = d.accelerations := by
  unfold recordDistance
  cases c.previousLocation <;> rfl

theorem recordDistance_harshAccelerations (haversine : GeoPoint → GeoPoint → ℚ)
    (c : Collector) (x : Sample) (d : Data) :
    (recordDistance haversine c x d).harshAccelerations = d.harshAccelerations := by
  unfold recordDistance
  cases c.previousLocation <;> rfl

theorem recordDistance_harshBraking (haversine : GeoPoint → GeoPoint → ℚ)
    (c : Collector) (x : Sample) (d : Data) :
    (recordDistance haversine c x d).harshBraking = d.harshBraking := by
  unfold recordDistance
  cases c.previousLocation <;> rfl

theorem recordAcceleration_distance (c : Collector) (x : Sample) (v : JSNum) (d : Data) :
    (recordAcceleration c x v d).distance = d.distance := by
  unfold recordAcceleration
  cases c.previousTimestamp with
  | none => rfl
  | some tp => simp only; split_ifs <;> rfl

theorem recordAcceleration_speeds (c : Collector) (x : Sample) (v : JSNum) (d : Data) :
    (recordAcceleration c x v d).speeds = d.speeds := by
  unfold recordAcceleration
  cases c.previousTimestamp with
  | none => rfl
  | some tp => simp only; split_ifs <;> rfl

theorem recordAcceleration_accelerations (c : Collector) (x : Sample) (v : JSNum)
    (d : Data) :
    (recordAcceleration c x v d).accelerations =
      match c.previousTimestamp with
      | some _ => d.accelerations ++ [accelerationOf c x v]
      | none => d.accelerations := by
  unfold recordAcceleration
  cases c.previousTimestamp with
  | none => rfl
  | some tp => simp only; split_ifs <;> rfl

theorem handleLocationUpdate_distance (haversine : GeoPoint → GeoPoint → ℚ)
    (c : Collector) (x : Sample) :
    (handleLocationUpdate haversine c x).drivingData.distance =
      match c.previousLocation with
      | some p => c.drivingData.distance + haversine p x.point
      | none => c.drivingData.distance := by
  simp only [handleLocationUpdate, updateIdleTime_distance, recordDistance_distance,
    recordAcceleration_distance]

theorem handleLocationUpdate_speeds (haversine : GeoPoint → GeoPoint → ℚ)
    (c : Collector) (x : Sample) :
    (handleLocationUpdate haversine c x).drivingData.speeds =
      c.drivingData.speeds ++ [currentSpeedOf haversine c x] := by
  simp only [handleLocationUpdate, updateIdleTime_speeds, recordDistance_speeds,
    recordAcceleration_speeds]

theorem handleLocationUpdate_accelerations (haversine : GeoPoint → GeoPoint → ℚ)
    (c : Collector) (x : Sample) :
    (handleLocationUpdate haversine c x).drivingData.accelerations =
      match c.previousTimestamp with
      | some _ => c.drivingData.accelerations
          ++ [accelerationOf c x (currentSpeedOf haversine c x)]
      | none => c.drivingData.accelerations := by
  simp only [handleLocationUpdate, updateIdleTime_accelerations,
    recordDistance_accelerations, recordAcceleration_accelerations]

theorem ingest_cons (haversine : GeoPoint → GeoPoint → ℚ) (c : Collector) (x : Sample)
    (xs : List Sample) :
    ingest haversine c (x :: xs) = ingest haversine (handleLocationUpdate haversine c x) xs :=
  rfl

theorem ingest_append_singleton (haversine : GeoPoint → GeoPoint → ℚ) (c : Collector)
    (xs : List Sample) (x : Sample) :
    ingest haversine c (xs ++ [x]) = handleLocationUpdate haversine (ingest haversine c xs) x := by
  simp [ingest, List.foldl_append]

/-! ### Distance -/

theorem ingest_distance (haversine : GeoPoint → GeoPoint → ℚ) (samples : List Sample) :
    ∀ c : Collector, (ingest haversine c samples).drivingData.distance =
      c.drivingData.distance
        + pathLength haversine (c.previousLocation.toList ++ samples.map Sample.point) := by
  induction samples with
  | nil =>
    intro c
    cases h : c.previousLocation <;> simp [ingest, pathLength]
  | cons x xs ih =>
    intro c
    rw [ingest_cons, ih, handleLocationUpdate_distance]
    have hp : (handleLocationUpdate haversine c x).previousLocation = some x.point := rfl
    rw [hp]
    cases h : c.previousLocation with
    | none => simp [pathLength]
    | some p => simp [pathLength, add_assoc]

/-- C5: with a non-negative great-circle distance, one ingestion never lowers
`distance` and changes it only when a previous location exists, and after the
samples of a sequence fed to a fresh collector `distance` is the sum of the
distances between consecutive locations. -/
theorem distance_accumulates (haversine : GeoPoint → GeoPoint → ℚ)
    (hnonneg : ∀ a b, 0 ≤ haversine a b) (c : Collector) (x : Sample)
    (samples : List Sample) :
    c.drivingData.distance ≤ (handleLocationUpdate haversine c x).drivingData.distance ∧
    ((handleLocationUpdate haversine c x).drivingData.distance ≠ c.drivingData.distance →
      c.previousLocation ≠ none) ∧
    (ingest haversine Collector.fresh samples).drivingData.distance
      = pathLength haversine (samples.map Sample.point) ∧
    (samples.length ≤ 1 →
      (ingest haversine Collector.fresh samples).drivingData.distance = 0) := by
  have hsum : (ingest haversine Collector.fresh samples).drivingData.distance
      = pathLength haversine (samples.map Sample.point) := by
    rw [ingest_distance]
    simp [Collector.fresh]
  refine ⟨?_, ?_, hsum, ?_⟩
  · rw [handleLocationUpdate_distance]
    cases c.previousLocation with
    | none => exact le_refl _
    | some p => exact le_add_of_nonneg_right (hnonneg p x.point)
  · rw [handleLocationUpdate_distance]
    cases c.previousLocation with
    | none => intro h; exact absurd rfl h
    | some p => intro _; simp
  · intro hlen
    rw [hsum]
    match samples, hlen with
    | [], _ => rfl
    | [_], _ => rfl

/-- C5 at three samples one thousandth of a degree apart on the equator: the
distance is twice 111.19 metres. -/
theorem distance_accumulates_witness :
    (∀ a b, 0 ≤ gridDistance a b) ∧
    (ingest gridDistance Collector.fresh
      [sampleAt 0 JSVal.null 1000, sampleAt 0.001 JSVal.null 2000,
        sampleAt 0.002 JSVal.null 3000]).drivingData.distance = 222.38 := by
  have hnonneg : ∀ a b, 0 ≤ gridDistance a b := by
    intro a b
    unfold gridDistance
    positivity
  refine ⟨hnonneg, ?_⟩
  rw [(distance_accumulates gridDistance hnonneg Collector.fresh
    (sampleAt 0 JSVal.null 1000) _).2.2.1]
  simp only [List.map, pathLength, gridDistance, Sample.point, sampleAt]
  norm_num [abs_of_nonneg, abs_of_neg]

/-! ### Lengths of the two sequences -/

theorem handleLocationUpdate_previousTimestamp (haversine : GeoPoint → GeoPoint → ℚ)
    (c : Collector) (x : Sample) :
    (handleLocationUpdate haversine c x).previousTimestamp = some (currentTimestampOf x) :=
  rfl

theorem ingest_speeds_length (haversine : GeoPoint → GeoPoint → ℚ)
    (samples : List Sample) :
    ∀ c : Collector, (ingest haversine c samples).drivingData.speeds.length =
      c.drivingData.speeds.length + samples.length := by
  induction samples with
  | nil => intro c; rfl
  | cons x xs ih =>
    intro c
    rw [ingest_cons, ih, handleLocationUpdate_speeds]
    simp only [List.length_append, List.length_singleton, List.length_cons, List.length_nil]
    omega

theorem ingest_accelerations_length_of_some (haversine : GeoPoint → GeoPoint → ℚ)
    (samples : List Sample) :
    ∀ c : Collector, c.previousTimestamp ≠ none →
      (ingest haversine c samples).drivingData.accelerations.length =
        c.drivingData.accelerations.length + samples.length := by
  induction samples with
  | nil => intro c _; rfl
  | cons x xs ih =>
    intro c hc
    rw [ingest_cons, ih _ (by rw [handleLocationUpdate_previousTimestamp]; simp),
      handleLocationUpdate_accelerations]
    cases h : c.previousTimestamp with
    | none => exact absurd h hc
    | some tp =>
      simp only [List.length_append, List.length_singleton, List.length_cons, List.length_nil]
      omega

/-- C8: after `n` position samples fed to a fresh collector `speeds` has `n`
entries and `accelerations` has `n - 1` entries when `n ≥ 2` and none
otherwise. -/
theorem speeds_accelerations_length (haversine : GeoPoint → GeoPoint → ℚ)
    (samples : List Sample) :
    (ingest haversine Collector.fresh samples).drivingData.speeds.length = samples.length ∧
    (ingest haversine Collector.fresh samples).drivingData.accelerations.length =
      if 2 ≤ samples.length then samples.length - 1 else 0 := by
  constructor
  · rw [ingest_speeds_length]
    simp [Collector.fresh]
  · cases samples with
    | nil => rfl
    | cons x xs =>
      rw [ingest_cons, ingest_accelerations_length_of_some _ _ _
        (by rw [handleLocationUpdate_previousTimestamp]; simp),
        handleLocationUpdate_accelerations]
      simp only [Collector.fresh, List.length_nil, List.length_cons]
      split_ifs <;> omega

/-! ### Idle time -/

theorem updateIdleTime_idleTime_cases (d : Data) (v : JSNum) (t : ℚ) :
    (updateIdleTime d v t).idleTime = d.idleTime ∨
    (JSNum.lt v (JSNum.fin 3) = true ∧ d.isIdle = true ∧
      ∃ l, d.lastIdleCheck = some l ∧ l ≠ 0 ∧
        (updateIdleTime d v t).idleTime = d.idleTime + (t - l) / 1000) := by
  unfold updateIdleTime
  by_cases hv : JSNum.lt v (JSNum.fin 3) = true
  · cases hi : d.isIdle with
    | false => left; simp [hv, hi]
    | true =>
      cases hl : d.lastIdleCheck with
      | none => left; simp [hv, hi]
      | some l =>
        by_cases h0 : l = 0
        · left; simp [hv, hi, h0]
        · right
          refine ⟨hv, rfl, l, rfl, h0, ?_⟩
          simp [hv, hi, h0]
  · left; simp [hv]

theorem updateIdleTime_lastIdleCheck_cases (d : Data) (v : JSNum) (t : ℚ) :
    (updateIdleTime d v t).lastIdleCheck = some t ∨
    (updateIdleTime d v t).lastIdleCheck = none ∨
    (updateIdleTime d v t).lastIdleCheck = d.lastIdleCheck := by
  unfold updateIdleTime
  by_cases hv : JSNum.lt v (JSNum.fin 3) = true
  · cases hi : d.isIdle with
    | false => left; simp [hv, hi]
    | true =>
      cases hl : d.lastIdleCheck with
      | none => right; left; simp [hv, hi, hl]
      | some l =>
        by_cases h0 : l = 0
        · right; right; simp [hv, hi, h0, hl]
        · left; simp [hv, hi, h0]
  · right; left; simp [hv]

theorem updateIdleTime_congr (d e : Data) (v : JSNum) (t : ℚ)
    (h1 : d.idleTime = e.idleTime) (h2 : d.isIdle = e.isIdle)
    (h3 : d.lastIdleCheck = e.lastIdleCheck) :
    (updateIdleTime d v t).idleTime = (updateIdleTime e v t).idleTime ∧
    (updateIdleTime d v t).isIdle = (updateIdleTime e v t).isIdle ∧
    (updateIdleTime d v t).lastIdleCheck = (updateIdleTime e v t).lastIdleCheck := by
  unfold updateIdleTime
  rw [h2, h3]
  by_cases hv : JSNum.lt v (JSNum.fin 3) = true
  · cases hi : e.isIdle with
    | false => simp [hv, h1]
    | true =>
      cases hl : e.lastIdleCheck with
      | none => simp [hv, h1, h2, hi, h3, hl]
      | some l =>
        by_cases h0 : l = 0
        · simp [hv, h0, h1, h2, hi, h3, hl]
        · simp [hv, h0, h1]
  · simp [hv, h1]

theorem recordAcceleration_idle (c : Collector) (x : Sample) (v : JSNum) (d : Data) :
    (recordAcceleration c x v d).idleTime = d.idleTime ∧
    (recordAcceleration c x v d).isIdle = d.isIdle ∧
    (recordAcceleration c x v d).lastIdleCheck = d.lastIdleCheck := by
  unfold recordAcceleration
  cases c.previousTimestamp with
  | none => exact ⟨rfl, rfl, rfl⟩
  | some tp => simp only; split_ifs <;> exact ⟨rfl, rfl, rfl⟩

theorem recordDistance_idle (haversine : GeoPoint → GeoPoint → ℚ) (c : Collector)
    (x : Sample) (d : Data) :
    (recordDistance haversine c x d).idleTime = d.idleTime ∧
    (recordDistance haversine c x d).isIdle = d.isIdle ∧
    (recordDistance haversine c x d).lastIdleCheck = d.lastIdleCheck := by
  unfold recordDistance
  cases c.previousLocation <;> exact ⟨rfl, rfl, rfl⟩

theorem handleLocationUpdate_idle (haversine : GeoPoint → GeoPoint → ℚ) (c : Collector)
    (x : Sample) :
    (handleLocationUpdate haversine c x).drivingData.idleTime =
      (updateIdleTime c.drivingData (currentSpeedOf haversine c x)
        (currentTimestampOf x)).idleTime ∧
    (handleLocationUpdate haversine c x).drivingData.isIdle =
      (updateIdleTime c.drivingData (currentSpeedOf haversine c x)
        (currentTimestampOf x)).isIdle ∧
    (handleLocationUpdate haversine c x).drivingData.lastIdleCheck =
      (updateIdleTime c.drivingData (currentSpeedOf haversine c x)
        (currentTimestampOf x)).lastIdleCheck := by
  simp only [handleLocationUpdate]
  apply updateIdleTime_congr
  · rw [(recordDistance_idle _ _ _ _).1, (recordAcceleration_idle _ _ _ _).1]
  · rw [(recordDistance_idle _ _ _ _).2.1, (recordAcceleration_idle _ _ _ _).2.1]
  · rw [(recordDistance_idle _ _ _ _).2.2, (recordAcceleration_idle _ _ _ _).2.2]

theorem ingest_lastIdleCheck_mem (haversine : GeoPoint → GeoPoint → ℚ)
    (pre : List Sample) :
    ∀ l, (ingest haversine Collector.fresh pre).drivingData.lastIdleCheck = some l →
      l ∈ pre.map currentTimestampOf := by
  induction pre using List.reverseRecOn with
  | nil => intro l h; simp [ingest, Collector.fresh] at h
  | append_singleton pre x ih =>
    intro l h
    rw [ingest_append_singleton, (handleLocationUpdate_idle _ _ _).2.2] at h
    rcases updateIdleTime_lastIdleCheck_cases
      (ingest haversine Collector.fresh pre).drivingData
      (currentSpeedOf haversine (ingest haversine Collector.fresh pre) x)
      (currentTimestampOf x) with h1 | h1 | h1
    · rw [h1] at h
      simp only [Option.some.injEq] at h
      simp [h]
    · rw [h1] at h
      cases h
    · rw [h1] at h
      simp only [List.map_append, List.mem_append]
      exact Or.inl (ih l h)

theorem updateIdleTime_entry (d : Data) (v : JSNum) (t : ℚ)
    (hv : JSNum.lt v (JSNum.fin 3) = true) (hi : d.isIdle = false) :
    (updateIdleTime d v t).idleTime = d.idleTime ∧
    (updateIdleTime d v t).isIdle = true ∧
    (updateIdleTime d v t).lastIdleCheck = some t := by
  simp [updateIdleTime, hv, hi]

theorem updateIdleTime_accrue (d : Data) (v : JSNum) (t l : ℚ)
    (hv : JSNum.lt v (JSNum.fin 3) = true) (hi : d.isIdle = true)
    (hl : d.lastIdleCheck = some l) (h0 : l ≠ 0) :
    (updateIdleTime d v t).idleTime = d.idleTime + (t - l) / 1000 ∧
    (updateIdleTime d v t).isIdle = true ∧
    (updateIdleTime d v t).lastIdleCheck = some t := by
  simp [updateIdleTime, hv, hi, hl, h0]

theorem currentSpeedOf_of_truthy (haversine : GeoPoint → GeoPoint → ℚ) (c : Collector)
    (x : Sample) (h : x.speed.truthy = true) :
    currentSpeedOf haversine c x = JSNum.mul x.speed.toNumber (JSNum.fin 3.6) := by
  simp [currentSpeedOf, h]

theorem currentTimestampOf_sampleAt (lon : ℚ) (speed : JSVal) (t : ℚ) (ht : t ≠ 0) :
    currentTimestampOf (sampleAt lon speed t) = t := by
  simp [currentTimestampOf, sampleAt, ht]

theorem slow_sample_speed (haversine : GeoPoint → GeoPoint → ℚ) (c : Collector)
    (lon t : ℚ) :
    JSNum.lt (currentSpeedOf haversine c (sampleAt lon (JSVal.num (JSNum.fin 0.5)) t))
      (JSNum.fin 3) = true := by
  rw [currentSpeedOf_of_truthy _ _ _
    (by simp only [sampleAt, JSVal.truthy, JSNum.truthy, decide_eq_true_eq]; norm_num)]
  simp only [sampleAt, JSVal.toNumber, JSNum.mul, JSNum.lt, decide_eq_true_eq]
  norm_num

/-- Outside the data model, whose timestamps are monotonic: two slow samples
whose timestamps go backwards, 2000 then 1000, take `idleTime` from 0 down
to -1, for the code has no ordering check. -/
theorem idleTime_decreases_out_of_order :
    (ingest gridDistance Collector.fresh
      [sampleAt 0 (JSVal.num (JSNum.fin 0.5)) 2000]).drivingData.idleTime = 0 ∧
    (ingest gridDistance Collector.fresh
      [sampleAt 0 (JSVal.num (JSNum.fin 0.5)) 2000,
        sampleAt 0 (JSVal.num (JSNum.fin 0.5)) 1000]).drivingData.idleTime = -1 := by
  obtain ⟨h1, h2, h3⟩ := handleLocationUpdate_idle gridDistance Collector.fresh
    (sampleAt 0 (JSVal.num (JSNum.fin 0.5)) 2000)
  obtain ⟨e1, e2, e3⟩ := updateIdleTime_entry Collector.fresh.drivingData _
    (currentTimestampOf (sampleAt 0 (JSVal.num (JSNum.fin 0.5)) 2000))
    (slow_sample_speed gridDistance Collector.fresh 0 2000) rfl
  rw [e1] at h1
  rw [e2] at h2
  rw [e3, currentTimestampOf_sampleAt _ _ _ (by norm_num)] at h3
  have hfirst : (ingest gridDistance Collector.fresh
      [sampleAt 0 (JSVal.num (JSNum.fin 0.5)) 2000]).drivingData.idleTime = 0 := h1
  refine ⟨hfirst, ?_⟩
  obtain ⟨a1, _, _⟩ := updateIdleTime_accrue
    (handleLocationUpdate gridDistance Collector.fresh
      (sampleAt 0 (JSVal.num (JSNum.fin 0.5)) 2000)).drivingData _
    (currentTimestampOf (sampleAt 0 (JSVal.num (JSNum.fin 0.5)) 1000)) 2000
    (slow_sample_speed gridDistance _ 0 1000) h2 h3 (by norm_num)
  rw [ingest_cons, ingest_cons, ingest,
    List.foldl_nil, (handleLocationUpdate_idle _ _ _).1, a1, h1,
    currentTimestampOf_sampleAt _ _ _ (by norm_num)]
  simp only [Collector.fresh]
  norm_num

/-- C6: for position samples fed to a fresh collector with the monotonic
timestamps of the data model (they never go backwards), an ingestion never
lowers `idleTime`; and, whatever the timestamps, `idleTime` changes only on a
sample whose speed is below 3 km/h while `isIdle` was already true. -/
theorem idleTime_monotone (haversine : GeoPoint → GeoPoint → ℚ) (pre : List Sample)
    (x : Sample) :
    (List.Pairwise (fun a b => a ≤ b) ((pre ++ [x]).map currentTimestampOf) →
      (ingest haversine Collector.fresh pre).drivingData.idleTime ≤
        (ingest haversine Collector.fresh (pre ++ [x])).drivingData.idleTime) ∧
    ((ingest haversine Collector.fresh (pre ++ [x])).drivingData.idleTime ≠
        (ingest haversine Collector.fresh pre).drivingData.idleTime →
      JSNum.lt (ingest haversine Collector.fresh (pre ++ [x])).previousSpeed (JSNum.fin 3)
        = true ∧
      (ingest haversine Collector.fresh pre).drivingData.isIdle = true) := by
  rw [ingest_append_singleton, (handleLocationUpdate_idle _ _ _).1]
  have hprev : (handleLocationUpdate haversine (ingest haversine Collector.fresh pre)
      x).previousSpeed = currentSpeedOf haversine (ingest haversine Collector.fresh pre) x :=
    rfl
  rw [hprev]
  rcases updateIdleTime_idleTime_cases (ingest haversine Collector.fresh pre).drivingData
    (currentSpeedOf haversine (ingest haversine Collector.fresh pre) x)
    (currentTimestampOf x) with h | ⟨hv, hi, l, hl, _, h⟩
  · rw [h]
    exact ⟨fun _ => le_refl _, fun hne => absurd rfl hne⟩
  · rw [h]
    refine ⟨?_, fun _ => ⟨hv, hi⟩⟩
    intro hsorted
    have hmem := ingest_lastIdleCheck_mem haversine pre l hl
    rw [List.map_append, List.pairwise_append] at hsorted
    have hle : l ≤ currentTimestampOf x := hsorted.2.2 l hmem _ (by simp)
    have : 0 ≤ (currentTimestampOf x - l) / 1000 :=
      div_nonneg (sub_nonneg.mpr hle) (by norm_num)
    linarith

/-- C6 on three slow samples one second apart. -/
theorem idleTime_monotone_witness :
    List.Pairwise (fun a b => a ≤ b)
      (([sampleAt 0 (JSVal.num (JSNum.fin 0.5)) 1000,
          sampleAt 0 (JSVal.num (JSNum.fin 0.5)) 2000]
        ++ [sampleAt 0 (JSVal.num (JSNum.fin 0.5)) 3000]).map currentTimestampOf) ∧
    (ingest gridDistance Collector.fresh
      [sampleAt 0 (JSVal.num (JSNum.fin 0.5)) 1000,
        sampleAt 0 (JSVal.num (JSNum.fin 0.5)) 2000]).drivingData.idleTime ≤
    (ingest gridDistance Collector.fresh
      ([sampleAt 0 (JSVal.num (JSNum.fin 0.5)) 1000,
        sampleAt 0 (JSVal.num (JSNum.fin 0.5)) 2000]
        ++ [sampleAt 0 (JSVal.num (JSNum.fin 0.5)) 3000])).drivingData.idleTime := by
  have hs : List.Pairwise (fun a b => a ≤ b)
      (([sampleAt 0 (JSVal.num (JSNum.fin 0.5)) 1000,
          sampleAt 0 (JSVal.num (JSNum.fin 0.5)) 2000]
        ++ [sampleAt 0 (JSVal.num (JSNum.fin 0.5)) 3000]).map currentTimestampOf) := by
    simp [currentTimestampOf, sampleAt]
    norm_num
  exact ⟨hs, (idleTime_monotone gridDistance _ _).1 hs⟩

theorem idleRun_cons (d : Data) (call : JSNum × ℚ) (calls : List (JSNum × ℚ)) :
    idleRun d (call :: calls) = idleRun (updateIdleTime d call.1 call.2) calls :=
  rfl

theorem idleRun_append_singleton (d : Data) (calls : List (JSNum × ℚ))
    (call : JSNum × ℚ) :
    idleRun d (calls ++ [call]) = updateIdleTime (idleRun d calls) call.1 call.2 := by
  simp [idleRun, List.foldl_append]

theorem idleRun_while_idle (calls : List (JSNum × ℚ)) :
    ∀ (e : Data) (v : JSNum) (l : ℚ), e.isIdle = true → e.lastIdleCheck = some l → l ≠ 0 →
      (∀ call ∈ calls, JSNum.lt call.1 (JSNum.fin 3) = true) →
      (∀ call ∈ calls, call.2 ≠ 0) →
      (idleRun e calls).idleTime = e.idleTime + ((calls.getLastD (v, l)).2 - l) / 1000 ∧
      (idleRun e calls).isIdle = true ∧
      (idleRun e calls).lastIdleCheck = some (calls.getLastD (v, l)).2 ∧
      (calls.getLastD (v, l)).2 ≠ 0 := by
  induction calls with
  | nil =>
    intro e v l hi hl h0 _ _
    refine ⟨?_, hi, hl, h0⟩
    simp [idleRun]
  | cons call calls ih =>
    intro e v l hi hl h0 hslow hnz
    obtain ⟨a1, a2, a3⟩ := updateIdleTime_accrue e call.1 call.2 l
      (hslow call (List.mem_cons_self _ _)) hi hl h0
    obtain ⟨b1, b2, b3, b4⟩ := ih (updateIdleTime e call.1 call.2) call.1 call.2 a2 a3
      (hnz call (List.mem_cons_self _ _))
      (fun c hc => hslow c (List.mem_cons_of_mem _ hc))
      (fun c hc => hnz c (List.mem_cons_of_mem _ hc))
    rw [idleRun_cons, List.getLastD_cons]
    refine ⟨?_, b2, b3, b4⟩
    rw [b1, a1]
    ring

/-- In exact arithmetic, from the Moving state, a run of calls of
`updateIdleTime` with speeds below 3 and non-zero timestamps accrues nothing on
its first call, accrues on each later call the time since the call before it,
and so raises `idleTime` by the last timestamp minus the first, over 1000. -/
theorem idleRun_accrues (d : Data) (v1 : JSNum) (t1 : ℚ) (rest : List (JSNum × ℚ))
    (hmoving : d.isIdle = false)
    (hslow : ∀ call ∈ (v1, t1) :: rest, JSNum.lt call.1 (JSNum.fin 3) = true)
    (hnz : ∀ call ∈ (v1, t1) :: rest, call.2 ≠ 0) :
    (updateIdleTime d v1 t1).idleTime = d.idleTime ∧
    (idleRun d ((v1, t1) :: rest)).idleTime
      = d.idleTime + ((rest.getLastD (v1, t1)).2 - t1) / 1000 ∧
    (∀ (pre post : List (JSNum × ℚ)) (call : JSNum × ℚ), rest = pre ++ call :: post →
      (idleRun d ((v1, t1) :: (pre ++ [call]))).idleTime
        = (idleRun d ((v1, t1) :: pre)).idleTime
          + (call.2 - (pre.getLastD (v1, t1)).2) / 1000) := by
  obtain ⟨e1, e2, e3⟩ := updateIdleTime_entry d v1 t1
    (hslow (v1, t1) (List.mem_cons_self _ _)) hmoving
  have hz : t1 ≠ 0 := hnz (v1, t1) (List.mem_cons_self _ _)
  refine ⟨e1, ?_, ?_⟩
  · obtain ⟨b1, _, _, _⟩ := idleRun_while_idle rest (updateIdleTime d v1 t1) v1 t1 e2 e3 hz
      (fun c hc => hslow c (List.mem_cons_of_mem _ hc))
      (fun c hc => hnz c (List.mem_cons_of_mem _ hc))
    rw [idleRun_cons, b1, e1]
  · intro pre post call hrest
    have hpre : ∀ c ∈ pre, c ∈ rest := by
      intro c hc
      rw [hrest]
      exact List.mem_append_left _ hc
    have hcall : call ∈ rest := by
      rw [hrest]
      exact List.mem_append_right _ (List.mem_cons_self _ _)
    obtain ⟨_, b2, b3, b4⟩ := idleRun_while_idle pre (updateIdleTime d v1 t1) v1 t1 e2 e3 hz
      (fun c hc => hslow c (List.mem_cons_of_mem _ (hpre c hc)))
      (fun c hc => hnz c (List.mem_cons_of_mem _ (hpre c hc)))
    obtain ⟨a1, _, _⟩ := updateIdleTime_accrue (idleRun (updateIdleTime d v1 t1) pre)
      call.1 call.2 _ (hslow call (List.mem_cons_of_mem _ hcall)) b2 b3 b4
    rw [← List.cons_append, idleRun_append_singleton, idleRun_cons, a1]

/-! ### Harsh events -/

theorem recordAcceleration_harsh (c : Collector) (x : Sample) (v : JSNum) (d : Data)
    (tp : ℚ) (hprev : c.previousTimestamp = some tp) :
    (recordAcceleration c x v d).harshAccelerations =
      (if JSNum.gt (accelerationOf c x v) (JSNum.fin 3.5) = true
        then d.harshAccelerations + 1 else d.harshAccelerations) ∧
    (recordAcceleration c x v d).harshBraking =
      (if JSNum.gt (accelerationOf c x v) (JSNum.fin 3.5) = true then d.harshBraking
        else if JSNum.lt (accelerationOf c x v) (JSNum.fin (-3.5)) = true
          then d.harshBraking + 1 else d.harshBraking) := by
  unfold recordAcceleration
  rw [hprev]
  simp only
  split_ifs <;> exact ⟨rfl, rfl⟩

theorem handleLocationUpdate_harsh (haversine : GeoPoint → GeoPoint → ℚ) (c : Collector)
    (x : Sample) (tp : ℚ) (hprev : c.previousTimestamp = some tp) :
    (handleLocationUpdate haversine c x).drivingData.harshAccelerations =
      (if JSNum.gt (accelerationOf c x (currentSpeedOf haversine c x)) (JSNum.fin 3.5) = true
        then c.drivingData.harshAccelerations + 1 else c.drivingData.harshAccelerations) ∧
    (handleLocationUpdate haversine c x).drivingData.harshBraking =
      (if JSNum.gt (accelerationOf c x (currentSpeedOf haversine c x)) (JSNum.fin 3.5) = true
        then c.drivingData.harshBraking
        else if JSNum.lt (accelerationOf c x (currentSpeedOf haversine c x))
            (JSNum.fin (-3.5)) = true
          then c.drivingData.harshBraking + 1 else c.drivingData.harshBraking) := by
  simp only [handleLocationUpdate, updateIdleTime_harshAccelerations,
    updateIdleTime_harshBraking, recordDistance_harshAccelerations,
    recordDistance_harshBraking]
  exact recordAcceleration_harsh c x _ _ tp hprev

theorem accelerationOf_eq_spec (haversine : GeoPoint → GeoPoint → ℚ) (c : Collector)
    (x : Sample) (tp : ℚ) (hprev : c.previousTimestamp = some tp) :
    accelerationOf c x (currentSpeedOf haversine c x) =
      accelerationSpec (handleLocationUpdate haversine c x).previousSpeed c.previousSpeed
        ((currentTimestampOf x - tp) / 1000) := by
  simp [accelerationOf, accelerationSpec, timeDiffOf, hprev, timestampNumber,
    handleLocationUpdate]

/-- C9: on a sample ingested when a previous timestamp exists, with `a` the
difference of the new and the previous speed in km/h over the elapsed seconds,
`a` is what is pushed to `accelerations`, `harshAccelerations` grows by one
exactly when `a > 3.5`, `harshBraking` grows by one exactly when `a < -3.5`,
never both, and each counter stays or grows by one. -/
theorem harsh_event_classification (haversine : GeoPoint → GeoPoint → ℚ) (c : Collector)
    (x : Sample) (tp : ℚ) (hprev : c.previousTimestamp = some tp) :
    (handleLocationUpdate haversine c x).drivingData.accelerations =
      c.drivingData.accelerations ++
        [accelerationSpec (handleLocationUpdate haversine c x).previousSpeed
          c.previousSpeed ((currentTimestampOf x - tp) / 1000)] ∧
    ((handleLocationUpdate haversine c x).drivingData.harshAccelerations
        = c.drivingData.harshAccelerations + 1 ↔
      JSNum.gt (accelerationSpec (handleLocationUpdate haversine c x).previousSpeed
        c.previousSpeed ((currentTimestampOf x - tp) / 1000)) (JSNum.fin 3.5) = true) ∧
    ((handleLocationUpdate haversine c x).drivingData.harshBraking
        = c.drivingData.harshBraking + 1 ↔
      JSNum.lt (accelerationSpec (handleLocationUpdate haversine c x).previousSpeed
        c.previousSpeed ((currentTimestampOf x - tp) / 1000)) (JSNum.fin (-3.5)) = true) ∧
    ¬ ((handleLocationUpdate haversine c x).drivingData.harshAccelerations
          = c.drivingData.harshAccelerations + 1 ∧
        (handleLocationUpdate haversine c x).drivingData.harshBraking
          = c.drivingData.harshBraking + 1) ∧
    c.drivingData.harshAccelerations
      ≤ (handleLocationUpdate haversine c x).drivingData.harshAccelerations ∧
    (handleLocationUpdate haversine c x).drivingData.harshAccelerations
      ≤ c.drivingData.harshAccelerations + 1 ∧
    c.drivingData.harshBraking
      ≤ (handleLocationUpdate haversine c x).drivingData.harshBraking ∧
    (handleLocationUpdate haversine c x).drivingData.harshBraking
      ≤ c.drivingData.harshBraking + 1 := by
  obtain ⟨hA, hB⟩ := handleLocationUpdate_harsh haversine c x tp hprev
  have hacc := handleLocationUpdate_accelerations haversine c x
  rw [hprev] at hacc
  simp only at hacc
  rw [accelerationOf_eq_spec haversine c x tp hprev] at hA hB hacc
  have hexcl : ∀ a : JSNum, JSNum.gt a (JSNum.fin 3.5) = true →
      JSNum.lt a (JSNum.fin (-3.5)) = true → False := by
    intro a h1 h2
    cases a with
    | fin q =>
      simp only [JSNum.gt, JSNum.lt, decide_eq_true_eq] at h1 h2
      norm_num at h1 h2
      linarith
    | pinf => simp [JSNum.lt] at h2
    | ninf => simp [JSNum.gt, JSNum.lt] at h1
    | nan => simp [JSNum.lt] at h2
  refine ⟨hacc, ?_, ?_, ?_, ?_, ?_, ?_, ?_⟩
  · rw [hA]
    split_ifs with h <;> simp [h]
  · rw [hB]
    split_ifs with h h'
    · have := hexcl _ h
      simp_all
    · simp [h']
    · simp [h']
  · rw [hA, hB]
    split_ifs <;> omega
  · rw [hA]
    split_ifs <;> omega
  · rw [hA]
    split_ifs <;> omega
  · rw [hB]
    split_ifs <;> omega
  · rw [hB]
    split_ifs <;> omega

theorem first_sample_state (speed : JSVal) (hfalsy : speed.truthy = false)
    (hzero : speed.toNumber = JSNum.fin 0) (lon t : ℚ) (ht : t ≠ 0) :
    (ingest gridDistance Collector.fresh [sampleAt lon speed t]).previousTimestamp = some t ∧
    (ingest gridDistance Collector.fresh [sampleAt lon speed t]).previousSpeed = JSNum.fin 0 ∧
    (ingest gridDistance Collector.fresh [sampleAt lon speed t]).previousLocation
      = some ⟨0, lon⟩ ∧
    (ingest gridDistance Collector.fresh [sampleAt lon speed t]).drivingData.speeds
      = [JSNum.fin 0] ∧
    (ingest gridDistance Collector.fresh
      [sampleAt lon speed t]).drivingData.harshAccelerations = 0 ∧
    (ingest gridDistance Collector.fresh [sampleAt lon speed t]).drivingData.harshBraking
      = 0 := by
  have hspeed : currentSpeedOf gridDistance Collector.fresh (sampleAt lon speed t)
      = JSNum.fin 0 := by
    have hs : (sampleAt lon speed t).speed = speed := rfl
    simp [currentSpeedOf, Collector.fresh, hs, hfalsy, hzero, JSNum.mul]
  have hts := currentTimestampOf_sampleAt lon speed t ht
  refine ⟨?_, ?_, ?_, ?_, ?_, ?_⟩
  · show some (currentTimestampOf (sampleAt lon speed t)) = some t
    rw [hts]
  · show currentSpeedOf gridDistance Collector.fresh (sampleAt lon speed t) = JSNum.fin 0
    exact hspeed
  · rfl
  · show (handleLocationUpdate gridDistance Collector.fresh
      (sampleAt lon speed t)).drivingData.speeds = [JSNum.fin 0]
    rw [handleLocationUpdate_speeds, hspeed]
    rfl
  · show (handleLocationUpdate gridDistance Collector.fresh
      (sampleAt lon speed t)).drivingData.harshAccelerations = 0
    simp only [handleLocationUpdate, updateIdleTime_harshAccelerations,
      recordDistance_harshAccelerations, recordAcceleration, Collector.fresh]
  · show (handleLocationUpdate gridDistance Collector.fresh
      (sampleAt lon speed t)).drivingData.harshBraking = 0
    simp only [handleLocationUpdate, updateIdleTime_harshBraking,
      recordDistance_harshBraking, recordAcceleration, Collector.fresh]

/-- C9 on a sample at speed 0 followed one second later by a sample whose
provider speed is 50 km/h: the acceleration is 50, one harsh acceleration and
no harsh braking are counted. -/
theorem harsh_event_classification_witness :
    (ingest gridDistance Collector.fresh
      [sampleAt 0 (JSVal.num (JSNum.fin 0)) 1000]).previousTimestamp = some 1000 ∧
    accelerationSpec
      (handleLocationUpdate gridDistance
        (ingest gridDistance Collector.fresh [sampleAt 0 (JSVal.num (JSNum.fin 0)) 1000])
        (sampleAt 0 (JSVal.num (JSNum.fin (50 / 3.6))) 2000)).previousSpeed
      (ingest gridDistance Collector.fresh
        [sampleAt 0 (JSVal.num (JSNum.fin 0)) 1000]).previousSpeed
      ((currentTimestampOf (sampleAt 0 (JSVal.num (JSNum.fin (50 / 3.6))) 2000) - 1000)
        / 1000) = JSNum.fin 50 ∧
    (handleLocationUpdate gridDistance
      (ingest gridDistance Collector.fresh [sampleAt 0 (JSVal.num (JSNum.fin 0)) 1000])
      (sampleAt 0 (JSVal.num (JSNum.fin (50 / 3.6))) 2000)).drivingData.harshAccelerations
      = 1 ∧
    (handleLocationUpdate gridDistance
      (ingest gridDistance Collector.fresh [sampleAt 0 (JSVal.num (JSNum.fin 0)) 1000])
      (sampleAt 0 (JSVal.num (JSNum.fin (50 / 3.6))) 2000)).drivingData.harshBraking
      = 0 := by
  obtain ⟨hts, hps, _, _, hA0, hB0⟩ := first_sample_state (JSVal.num (JSNum.fin 0))
    (by simp [JSVal.truthy, JSNum.truthy]) rfl 0 1000 (by norm_num)
  have hcur : (handleLocationUpdate gridDistance
      (ingest gridDistance Collector.fresh [sampleAt 0 (JSVal.num (JSNum.fin 0)) 1000])
      (sampleAt 0 (JSVal.num (JSNum.fin (50 / 3.6))) 2000)).previousSpeed
      = JSNum.fin 50 := by
    show currentSpeedOf gridDistance
      (ingest gridDistance Collector.fresh [sampleAt 0 (JSVal.num (JSNum.fin 0)) 1000])
      (sampleAt 0 (JSVal.num (JSNum.fin (50 / 3.6))) 2000) = JSNum.fin 50
    rw [currentSpeedOf_of_truthy _ _ _
      (by simp only [sampleAt, JSVal.truthy, JSNum.truthy, decide_eq_true_eq]; norm_num)]
    simp only [sampleAt, JSVal.toNumber, JSNum.mul]
    norm_num
  have ha : accelerationSpec
      (handleLocationUpdate gridDistance
        (ingest gridDistance Collector.fresh [sampleAt 0 (JSVal.num (JSNum.fin 0)) 1000])
        (sampleAt 0 (JSVal.num (JSNum.fin (50 / 3.6))) 2000)).previousSpeed
      (ingest gridDistance Collector.fresh
        [sampleAt 0 (JSVal.num (JSNum.fin 0)) 1000]).previousSpeed
      ((currentTimestampOf (sampleAt 0 (JSVal.num (JSNum.fin (50 / 3.6))) 2000) - 1000)
        / 1000) = JSNum.fin 50 := by
    rw [hcur, hps, currentTimestampOf_sampleAt _ _ _ (by norm_num)]
    simp only [accelerationSpec, JSNum.sub, JSNum.neg, JSNum.add, JSNum.div]
    norm_num
  obtain ⟨_, hacc, hbrk, _⟩ := harsh_event_classification gridDistance
    (ingest gridDistance Collector.fresh [sampleAt 0 (JSVal.num (JSNum.fin 0)) 1000])
    (sampleAt 0 (JSVal.num (JSNum.fin (50 / 3.6))) 2000) 1000 hts
  rw [ha] at hacc hbrk
  have hgt : JSNum.gt (JSNum.fin 50) (JSNum.fin 3.5) = true := by
    simp only [JSNum.gt, JSNum.lt, decide_eq_true_eq]
    norm_num
  have hlt : ¬ JSNum.lt (JSNum.fin 50) (JSNum.fin (-3.5)) = true := by
    simp only [JSNum.lt, decide_eq_true_eq]
    norm_num
  refine ⟨hts, ha, ?_, ?_⟩
  · rw [hacc.mpr hgt, hA0]
  · have hno := mt hbrk.mp hlt
    have hbound := (harsh_event_classification gridDistance
      (ingest gridDistance Collector.fresh [sampleAt 0 (JSVal.num (JSNum.fin 0)) 1000])
      (sampleAt 0 (JSVal.num (JSNum.fin (50 / 3.6))) 2000) 1000 hts).2.2.2.2.2.2
    rw [hB0] at hno hbound
    omega

/-! ### Provider speed -/

/-- C10 fails at a provider speed of 0: after a first sample at the origin, a
sample 0.001 degree further east one second later with provider speed 0 gets
the speed derived from the two positions, 111.19 m/s or 400.284 km/h, where
`speed * 3.6` is 0. -/
theorem zero_speed_is_derived :
    (sampleAt 0.001 (JSVal.num (JSNum.fin 0)) 2000).speed = JSVal.num (JSNum.fin 0) ∧
    JSNum.mul (JSNum.fin 0) (JSNum.fin 3.6) = JSNum.fin 0 ∧
    (handleLocationUpdate gridDistance
      (ingest gridDistance Collector.fresh [sampleAt 0 (JSVal.num (JSNum.fin 0)) 1000])
      (sampleAt 0.001 (JSVal.num (JSNum.fin 0)) 2000)).drivingData.speeds
      = [JSNum.fin 0, JSNum.fin 400.284] := by
  obtain ⟨hts, _, hloc, hsp, _, _⟩ := first_sample_state (JSVal.num (JSNum.fin 0))
    (by simp [JSVal.truthy, JSNum.truthy]) rfl 0 1000 (by norm_num)
  refine ⟨rfl, by simp [JSNum.mul], ?_⟩
  rw [handleLocationUpdate_speeds, hsp]
  have hfalsy : (sampleAt 0.001 (JSVal.num (JSNum.fin 0)) 2000).speed.truthy = false := by
    simp [sampleAt, JSVal.truthy, JSNum.truthy]
  have hd : gridDistance ⟨0, 0⟩ (sampleAt 0.001 (JSVal.num (JSNum.fin 0)) 2000).point
      = 111.19 := by
    simp only [gridDistance, sampleAt, Sample.point]
    norm_num [abs_of_nonneg]
  have hspeed : currentSpeedOf gridDistance
      (ingest gridDistance Collector.fresh [sampleAt 0 (JSVal.num (JSNum.fin 0)) 1000])
      (sampleAt 0.001 (JSVal.num (JSNum.fin 0)) 2000) = JSNum.fin 400.284 := by
    simp only [currentSpeedOf, hfalsy, hloc, hd, timeDiffOf, hts, timestampNumber,
      currentTimestampOf_sampleAt _ _ _ (show (2000 : ℚ) ≠ 0 by norm_num), Bool.not_false,
      if_true, JSNum.div, JSNum.mul]
    norm_num [JSNum.mul]
  rw [hspeed]
  rfl

/-- When the provider speed is truthy (a number other than 0 and `NaN`), the
value appended to `speeds` is `speed * 3.6`, whatever the positions. -/
theorem truthy_speed_is_taken (haversine : GeoPoint → GeoPoint → ℚ) (c : Collector)
    (x : Sample) (h : x.speed.truthy = true) :
    (handleLocationUpdate haversine c x).drivingData.speeds =
      c.drivingData.speeds ++ [JSNum.mul x.speed.toNumber (JSNum.fin 3.6)] := by
  rw [handleLocationUpdate_speeds, currentSpeedOf_of_truthy haversine c x h]

/-! ### Speed derived from the positions -/

theorem currentSpeedOf_of_absent (haversine : GeoPoint → GeoPoint → ℚ) (c : Collector)
    (x : Sample) (p : GeoPoint)
    (hspeed : x.speed = JSVal.null ∨ x.speed = JSVal.undefined)
    (hloc : c.previousLocation = some p) :
    currentSpeedOf haversine c x =
      JSNum.mul (JSNum.div (JSNum.fin (haversine p x.point)) (JSNum.fin (timeDiffOf c x)))
        (JSNum.fin 3.6) := by
  have hfalsy : x.speed.truthy = false := by
    rcases hspeed with h | h <;> rw [h] <;> rfl
  simp [currentSpeedOf, hfalsy, hloc]

/-- C11, as stated, fails: after a first sample at the origin, a sample without
provider speed 0.001 degree further east carrying the same timestamp has
elapsed time 0; the code divides 111.19 by 0 and appends `Infinity`, where the
previous speed is 0. -/
theorem zero_elapsed_gives_infinite_speed :
    (ingest gridDistance Collector.fresh [sampleAt 0 JSVal.null 1000]).previousSpeed
      = JSNum.fin 0 ∧
    timeDiffOf (ingest gridDistance Collector.fresh [sampleAt 0 JSVal.null 1000])
      (sampleAt 0.001 JSVal.null 1000) = 0 ∧
    (handleLocationUpdate gridDistance
      (ingest gridDistance Collector.fresh [sampleAt 0 JSVal.null 1000])
      (sampleAt 0.001 JSVal.null 1000)).drivingData.speeds
      = [JSNum.fin 0, JSNum.pinf] := by
  obtain ⟨hts, hps, hloc, hsp, _, _⟩ := first_sample_state JSVal.null rfl rfl 0 1000
    (by norm_num)
  have htd : timeDiffOf (ingest gridDistance Collector.fresh [sampleAt 0 JSVal.null 1000])
      (sampleAt 0.001 JSVal.null 1000) = 0 := by
    simp [timeDiffOf, hts, timestampNumber,
      currentTimestampOf_sampleAt _ _ _ (show (1000 : ℚ) ≠ 0 by norm_num)]
  refine ⟨hps, htd, ?_⟩
  rw [handleLocationUpdate_speeds, hsp,
    currentSpeedOf_of_absent gridDistance _ _ _ (Or.inl rfl) hloc, htd]
  have hd : gridDistance ⟨0, 0⟩ (sampleAt 0.001 JSVal.null 1000).point = 111.19 := by
    simp only [gridDistance, sampleAt, Sample.point]
    norm_num [abs_of_nonneg]
  rw [hd]
  have hinf : JSNum.mul (JSNum.div (JSNum.fin 111.19) (JSNum.fin 0)) (JSNum.fin 3.6)
      = JSNum.pinf := by
    simp only [JSNum.div, JSNum.signedInf]
    norm_num [JSNum.mul, JSNum.signedInf]
  rw [hinf]
  rfl

/-- C11, amended: for a sample without provider speed, ingested when a previous
location and a previous timestamp exist and the elapsed seconds are zero or
negative, the code does divide by the elapsed seconds: the speed appended is the
distance over the elapsed seconds times 3.6, which is `Infinity` for zero
elapsed time and a positive distance, `NaN` for zero elapsed time and a zero
distance, and the quotient itself for a negative elapsed time. -/
theorem derived_speed_nonpositive_elapsed (haversine : GeoPoint → GeoPoint → ℚ)
    (c : Collector) (x : Sample) (p : GeoPoint) (tp : ℚ)
    (hspeed : x.speed = JSVal.null ∨ x.speed = JSVal.undefined)
    (hloc : c.previousLocation = some p) (hts : c.previousTimestamp = some tp)
    (helapsed : (currentTimestampOf x - tp) / 1000 ≤ 0) :
    (handleLocationUpdate haversine c x).drivingData.speeds =
      c.drivingData.speeds ++
        [JSNum.mul (JSNum.div (JSNum.fin (haversine p x.point))
          (JSNum.fin ((currentTimestampOf x - tp) / 1000))) (JSNum.fin 3.6)] ∧
    ((currentTimestampOf x - tp) / 1000 = 0 → 0 < haversine p x.point →
      (handleLocationUpdate haversine c x).drivingData.speeds
        = c.drivingData.speeds ++ [JSNum.pinf]) ∧
    ((currentTimestampOf x - tp) / 1000 = 0 → haversine p x.point = 0 →
      (handleLocationUpdate haversine c x).drivingData.speeds
        = c.drivingData.speeds ++ [JSNum.nan]) ∧
    ((currentTimestampOf x - tp) / 1000 < 0 →
      (handleLocationUpdate haversine c x).drivingData.speeds
        = c.drivingData.speeds ++
          [JSNum.fin (haversine p x.point / ((currentTimestampOf x - tp) / 1000) * 3.6)]) := by
  have htd : timeDiffOf c x = (currentTimestampOf x - tp) / 1000 := by
    simp [timeDiffOf, hts, timestampNumber]
  have hsp : (handleLocationUpdate haversine c x).drivingData.speeds =
      c.drivingData.speeds ++
        [JSNum.mul (JSNum.div (JSNum.fin (haversine p x.point))
          (JSNum.fin ((currentTimestampOf x - tp) / 1000))) (JSNum.fin 3.6)] := by
    rw [handleLocationUpdate_speeds, currentSpeedOf_of_absent haversine c x p hspeed hloc,
      htd]
  refine ⟨hsp, ?_, ?_, ?_⟩
  · intro h0 hd
    rw [hsp, h0]
    have : JSNum.mul (JSNum.div (JSNum.fin (haversine p x.point)) (JSNum.fin 0))
        (JSNum.fin 3.6) = JSNum.pinf := by
      simp only [JSNum.div, if_true, hd.ne', if_false, decide_eq_true hd, JSNum.signedInf]
      norm_num [JSNum.mul, JSNum.signedInf]
    rw [this]
  · intro h0 hd
    rw [hsp, h0, hd]
    simp [JSNum.div, JSNum.mul]
  · intro hneg
    rw [hsp]
    simp [JSNum.div, JSNum.mul, hneg.ne]

/-- The amended C11 on a second sample stamped half a second before the first:
the speed appended is 111.19 / (-0.5) * 3.6 = -800.568. -/
theorem derived_speed_nonpositive_elapsed_witness :
    (handleLocationUpdate gridDistance
      (ingest gridDistance Collector.fresh [sampleAt 0 JSVal.null 1000])
      (sampleAt 0.001 JSVal.null 500)).drivingData.speeds
      = [JSNum.fin 0, JSNum.fin (-800.568)] := by
  obtain ⟨hts, _, hloc, hsp, _, _⟩ := first_sample_state JSVal.null rfl rfl 0 1000
    (by norm_num)
  have hct : currentTimestampOf (sampleAt 0.001 JSVal.null 500) = 500 :=
    currentTimestampOf_sampleAt _ _ _ (by norm_num)
  have h := (derived_speed_nonpositive_elapsed gridDistance
    (ingest gridDistance Collector.fresh [sampleAt 0 JSVal.null 1000])
    (sampleAt 0.001 JSVal.null 500) ⟨0, 0⟩ 1000 (Or.inl rfl) hloc hts
    (by rw [hct]; norm_num)).2.2.2 (by rw [hct]; norm_num)
  rw [h, hsp, hct]
  have hd : gridDistance ⟨0, 0⟩ (sampleAt 0.001 JSVal.null 500).point = 111.19 := by
    simp only [gridDistance, sampleAt, Sample.point]
    norm_num [abs_of_nonneg]
  rw [hd]
  norm_num

/-! ### Average speed of two samples without provider speed -/

theorem orZero_fin (q : ℚ) : (JSVal.num (JSNum.fin q)).orZero = JSNum.fin q := by
  by_cases hq : q = 0 <;> simp [JSVal.orZero, JSVal.truthy, JSNum.truthy, JSVal.toNumber, hq]

theorem average_pair_fin (a b : ℚ) :
    average [JSNum.fin a, JSNum.fin b] = JSNum.fin ((a + b) / 2) := by
  simp only [average, sumReduce, List.foldl, JSNum.add, List.length]
  norm_num [JSNum.div]

theorem div_fin_of_ne (a b : ℚ) (hb : b ≠ 0) :
    JSNum.div (JSNum.fin a) (JSNum.fin b) = JSNum.fin (a / b) := by
  simp [JSNum.div, hb]

theorem mul_fin (a b : ℚ) : JSNum.mul (JSNum.fin a) (JSNum.fin b) = JSNum.fin (a * b) :=
  rfl

theorem two_samples_speeds (haversine : GeoPoint → GeoPoint → ℚ) (x1 x2 : Sample)
    (h1 : x1.speed = JSVal.null ∨ x1.speed = JSVal.undefined)
    (h2 : x2.speed = JSVal.null ∨ x2.speed = JSVal.undefined) :
    (ingest haversine Collector.fresh [x1, x2]).drivingData.speeds =
      [JSNum.mul x1.speed.toNumber (JSNum.fin 3.6),
        JSNum.mul (JSNum.div (JSNum.fin (haversine x1.point x2.point))
          (JSNum.fin ((currentTimestampOf x2 - currentTimestampOf x1) / 1000)))
          (JSNum.fin 3.6)] := by
  have hfalsy : x1.speed.truthy = false := by
    rcases h1 with h | h <;> rw [h] <;> rfl
  have hfirst : currentSpeedOf haversine Collector.fresh x1
      = JSNum.mul x1.speed.toNumber (JSNum.fin 3.6) := by
    simp [currentSpeedOf, hfalsy, Collector.fresh]
  have hloc : (handleLocationUpdate haversine Collector.fresh x1).previousLocation
      = some x1.point := rfl
  have htd : timeDiffOf (handleLocationUpdate haversine Collector.fresh x1) x2
      = (currentTimestampOf x2 - currentTimestampOf x1) / 1000 := by
    simp [timeDiffOf, handleLocationUpdate_previousTimestamp, timestampNumber]
  rw [ingest_cons, ingest_cons, ingest, List.foldl_nil, handleLocationUpdate_speeds,
    handleLocationUpdate_speeds, hfirst,
    currentSpeedOf_of_absent haversine _ x2 x1.point h2 hloc, htd]
  rfl

/-- C12, as stated, fails: for the samples (0, 0) and (0, 0.001 degree) one
second apart without provider speed, the first sample puts a speed of 0 in
`speeds`, so the average is 200.142 km/h, half of 111.19 / 1 * 3.6 = 400.284. -/
theorem average_speed_is_halved :
    gridDistance (sampleAt 0 JSVal.null 1000).point (sampleAt 0.001 JSVal.null 2000).point
      / 1 * 3.6 = 400.284 ∧
    (getDrivingMetrics (ingest gridDistance Collector.fresh
      [sampleAt 0 JSVal.null 1000, sampleAt 0.001 JSVal.null 2000])).averageSpeed
      = JSNum.fin 200.142 := by
  have hd : gridDistance (sampleAt 0 JSVal.null 1000).point
      (sampleAt 0.001 JSVal.null 2000).point = 111.19 := by
    simp only [gridDistance, sampleAt, Sample.point]
    norm_num [abs_of_nonneg]
  refine ⟨by rw [hd]; norm_num, ?_⟩
  have hsp := two_samples_speeds gridDistance (sampleAt 0 JSVal.null 1000)
    (sampleAt 0.001 JSVal.null 2000) (Or.inl rfl) (Or.inl rfl)
  rw [hd, currentTimestampOf_sampleAt _ _ _ (show (2000 : ℚ) ≠ 0 by norm_num),
    currentTimestampOf_sampleAt _ _ _ (show (1000 : ℚ) ≠ 0 by norm_num)] at hsp
  have hnull : (sampleAt 0 JSVal.null 1000).speed.toNumber = JSNum.fin 0 := rfl
  rw [hnull, div_fin_of_ne _ _ (by norm_num), mul_fin, mul_fin] at hsp
  simp only [getDrivingMetrics]
  rw [hsp, average_pair_fin, orZero_fin]
  norm_num

/-- C12, amended: for two samples without provider speed, a positive time
apart, fed to a fresh collector, `averageSpeed` is half of the distance over the
elapsed seconds times 3.6 when the first speed is `null`, because the first
sample contributes a speed of 0 to `speeds`; and it is 0 when the first speed is
`undefined`, because the first entry of `speeds` is then `NaN`. -/
theorem average_speed_two_samples (haversine : GeoPoint → GeoPoint → ℚ) (x1 x2 : Sample)
    (h1 : x1.speed = JSVal.null ∨ x1.speed = JSVal.undefined)
    (h2 : x2.speed = JSVal.null ∨ x2.speed = JSVal.undefined)
    (hdt : 0 < (currentTimestampOf x2 - currentTimestampOf x1) / 1000) :
    (x1.speed = JSVal.null →
      (getDrivingMetrics (ingest haversine Collector.fresh [x1, x2])).averageSpeed =
        JSNum.fin (haversine x1.point x2.point
          / ((currentTimestampOf x2 - currentTimestampOf x1) / 1000) * 3.6 / 2)) ∧
    (x1.speed = JSVal.undefined →
      (getDrivingMetrics (ingest haversine Collector.fresh [x1, x2])).averageSpeed =
        JSNum.fin 0) := by
  have hsp := two_samples_speeds haversine x1 x2 h1 h2
  have hne : (currentTimestampOf x2 - currentTimestampOf x1) / 1000 ≠ 0 := hdt.ne'
  constructor
  · intro hnull
    rw [hnull] at hsp
    have hzero : JSVal.null.toNumber = JSNum.fin 0 := rfl
    rw [hzero, div_fin_of_ne _ _ hne, mul_fin, mul_fin] at hsp
    simp only [getDrivingMetrics]
    rw [hsp, average_pair_fin, orZero_fin]
    norm_num
  · intro hundef
    rw [hundef] at hsp
    simp [getDrivingMetrics, hsp, average, sumReduce, JSVal.toNumber, JSNum.mul, JSNum.div,
      JSNum.add, JSVal.orZero, JSVal.truthy, JSNum.truthy]

/-- The amended C12 at (0, 0) then (0, 0.001 degree), two seconds apart, speed
`null`: the average is 111.19 / 2 * 3.6 / 2 = 100.071 km/h. -/
theorem average_speed_two_samples_witness :
    (getDrivingMetrics (ingest gridDistance Collector.fresh
      [sampleAt 0 JSVal.null 1000, sampleAt 0.001 JSVal.null 3000])).averageSpeed
      = JSNum.fin 100.071 := by
  have hc1 : currentTimestampOf (sampleAt 0 JSVal.null 1000) = 1000 :=
    currentTimestampOf_sampleAt _ _ _ (by norm_num)
  have hc2 : currentTimestampOf (sampleAt 0.001 JSVal.null 3000) = 3000 :=
    currentTimestampOf_sampleAt _ _ _ (by norm_num)
  have hd : gridDistance (sampleAt 0 JSVal.null 1000).point
      (sampleAt 0.001 JSVal.null 3000).point = 111.19 := by
    simp only [gridDistance, sampleAt, Sample.point]
    norm_num [abs_of_nonneg]
  rw [(average_speed_two_samples gridDistance (sampleAt 0 JSVal.null 1000)
    (sampleAt 0.001 JSVal.null 3000) (Or.inl rfl) (Or.inl rfl)
    (by rw [hc1, hc2]; norm_num)).1 rfl, hc1, hc2, hd]
  norm_num

/-! ### Motion samples -/

theorem processEvents_eq_ingest (haversine : GeoPoint → GeoPoint → ℚ) (mathSqrt : ℚ → ℚ)
    (events : List Event) :
    ∀ c : Collector, processEvents haversine mathSqrt c events
      = ingest haversine c (positionsOf events) := by
  induction events with
  | nil => intro c; rfl
  | cons e rest ih =>
    intro c
    cases e with
    | position location =>
      show processEvents haversine mathSqrt (handleLocationUpdate haversine c location) rest
        = ingest haversine (handleLocationUpdate haversine c location) (positionsOf rest)
      exact ih _
    | motion accelerometerData =>
      show processEvents haversine mathSqrt c rest = ingest haversine c (positionsOf rest)
      exact ih _

/-- C13: `handleAccelerometerUpdate` of the DashboardScreen collector returns
the state it was given, so after any interleaving of position and motion samples
the state, and with it `accelerations`, is the one the position samples alone
produce. -/
theorem handleAccelerometerUpdate_unchanged (haversine : GeoPoint → GeoPoint → ℚ)
    (mathSqrt : ℚ → ℚ) (c : Collector) (accelerometerData : MotionSample)
    (events : List Event) :
    handleAccelerometerUpdate mathSqrt c accelerometerData = c ∧
    (handleAccelerometerUpdate mathSqrt c accelerometerData).drivingData.accelerations
      = c.drivingData.accelerations ∧
    processEvents haversine mathSqrt c events = ingest haversine c (positionsOf events) ∧
    (processEvents haversine mathSqrt c events).drivingData.accelerations
      = (ingest haversine c (positionsOf events)).drivingData.accelerations := by
  refine ⟨rfl, rfl, processEvents_eq_ingest haversine mathSqrt events c, ?_⟩
  rw [processEvents_eq_ingest]

/-- The utility copy, unlike the DashboardScreen copy, pushes the magnitude of
every motion sample to `accelerations`. -/
theorem utils_handleAccelerometerUpdate_pushes (mathSqrt : ℚ → ℚ) (c : Utils.Collector)
    (accelerometerData : MotionSample) :
    (Utils.handleAccelerometerUpdate mathSqrt c accelerometerData).drivingData.accelerations =
      c.drivingData.accelerations ++
        [JSNum.fin (mathSqrt (accelerometerData.x * accelerometerData.x
          + accelerometerData.y * accelerometerData.y
          + accelerometerData.z * accelerometerData.z))] :=
  rfl

/-! ### The two copies of the collector -/

theorem updateIdleTime_common (d : Data) (v : JSNum) (t : ℚ) :
    Utils.updateIdleTime d.common v t = (updateIdleTime d v t).common := by
  unfold Utils.updateIdleTime updateIdleTime
  by_cases hv : JSNum.lt v (JSNum.fin 3) = true
  · cases hi : d.isIdle with
    | false => simp [hv, hi, Data.common]
    | true =>
      cases hl : d.lastIdleCheck with
      | none => simp [hv, hi, hl, Data.common]
      | some l =>
        by_cases h0 : l = 0
        · simp [hv, hi, hl, h0, Data.common]
        · simp [hv, hi, hl, h0, Data.common]
  · simp [hv, Data.common]

theorem recordAcceleration_common (c : Collector) (x : Sample) (v : JSNum) (d : Data) :
    (recordAcceleration c x v d).common =
      match c.previousTimestamp with
      | some _ =>
        { d.common with accelerations := d.accelerations ++ [accelerationOf c x v] }
      | none => d.common := by
  unfold recordAcceleration
  cases c.previousTimestamp with
  | none => rfl
  | some tp => simp only; split_ifs <;> rfl

theorem recordDistance_common (haversine : GeoPoint → GeoPoint → ℚ) (c : Collector)
    (x : Sample) (d : Data) :
    (recordDistance haversine c x d).common =
      match c.previousLocation with
      | some p => { d.common with distance := d.distance + haversine p x.point }
      | none => d.common := by
  unfold recordDistance
  cases c.previousLocation <;> rfl

theorem common_eq_of_fields (u : Utils.Collector) (c : Collector)
    (h1 : u.previousLocation = c.previousLocation) (h2 : u.previousSpeed = c.previousSpeed)
    (h3 : u.previousTimestamp = c.previousTimestamp)
    (h4 : u.drivingData = c.drivingData.common) : u = c.common := by
  cases u
  cases c
  simp only [Collector.common] at *
  simp [h1, h2, h3, h4]

theorem handleLocationUpdate_common (haversine : GeoPoint → GeoPoint → ℚ) (c : Collector)
    (x : Sample) :
    Utils.handleLocationUpdate haversine c.common x
      = (handleLocationUpdate haversine c x).common := by
  apply common_eq_of_fields
  · rfl
  · rfl
  · rfl
  · show Utils.updateIdleTime _ _ _ = (updateIdleTime _ _ _).common
    rw [← updateIdleTime_common, recordDistance_common, recordAcceleration_common]
    cases hts : c.previousTimestamp <;> cases hloc : c.previousLocation <;>
      simp [Collector.common, Data.common, hts, hloc, currentSpeedOf, accelerationOf,
        timeDiffOf, recordAcceleration_distance]

theorem ingest_common (haversine : GeoPoint → GeoPoint → ℚ) (samples : List Sample) :
    ∀ c : Collector, Utils.ingest haversine c.common samples
      = (ingest haversine c samples).common := by
  induction samples with
  | nil => intro c; rfl
  | cons x xs ih =>
    intro c
    show Utils.ingest haversine (Utils.handleLocationUpdate haversine c.common x) xs
      = (ingest haversine (handleLocationUpdate haversine c x) xs).common
    rw [handleLocationUpdate_common, ih]

/-- C15: fed the same position samples from a fresh state, the collector of
`src/utils/DrivingDataCollector.js` and the one of `src/app/DashboardScreen.js`
end with equal `speeds`, `accelerations`, `coordinates`, `timestamps`,
`distance`, `idleTime`, `isIdle`, `lastIdleCheck`, `previousLocation`,
`previousSpeed` and `previousTimestamp`. -/
theorem copies_agree_on_positions (haversine : GeoPoint → GeoPoint → ℚ)
    (samples : List Sample) :
    (Utils.ingest haversine Utils.Collector.fresh samples).drivingData.speeds
      = (ingest haversine Collector.fresh samples).drivingData.speeds ∧
    (Utils.ingest haversine Utils.Collector.fresh samples).drivingData.accelerations
      = (ingest haversine Collector.fresh samples).drivingData.accelerations ∧
    (Utils.ingest haversine Utils.Collector.fresh samples).drivingData.coordinates
      = (ingest haversine Collector.fresh samples).drivingData.coordinates ∧
    (Utils.ingest haversine Utils.Collector.fresh samples).drivingData.timestamps
      = (ingest haversine Collector.fresh samples).drivingData.timestamps ∧
    (Utils.ingest haversine Utils.Collector.fresh samples).drivingData.distance
      = (ingest haversine Collector.fresh samples).drivingData.distance ∧
    (Utils.ingest haversine Utils.Collector.fresh samples).drivingData.idleTime
      = (ingest haversine Collector.fresh samples).drivingData.idleTime ∧
    (Utils.ingest haversine Utils.Collector.fresh samples).drivingData.isIdle
      = (ingest haversine Collector.fresh samples).drivingData.isIdle ∧
    (Utils.ingest haversine Utils.Collector.fresh samples).drivingData.lastIdleCheck
      = (ingest haversine Collector.fresh samples).drivingData.lastIdleCheck ∧
    (Utils.ingest haversine Utils.Collector.fresh samples).previousLocation
      = (ingest haversine Collector.fresh samples).previousLocation ∧
    (Utils.ingest haversine Utils.Collector.fresh samples).previousSpeed
      = (ingest haversine Collector.fresh samples).previousSpeed ∧
    (Utils.ingest haversine Utils.Collector.fresh samples).previousTimestamp
      = (ingest haversine Collector.fresh samples).previousTimestamp := by
  have hfresh : Utils.Collector.fresh = Collector.fresh.common := rfl
  rw [hfresh, ingest_common]
  exact ⟨rfl, rfl, rfl, rfl, rfl, rfl, rfl, rfl, rfl, rfl, rfl⟩

/-! ### Maximum speed -/

theorem lt_self (a : JSNum) : JSNum.lt a a = false := by
  cases a <;> simp [JSNum.lt]

theorem lt_asymm (a b : JSNum) (h : JSNum.lt a b = true) : JSNum.lt b a = false := by
  cases a <;> cases b <;> simp_all [JSNum.lt]
  exact le_of_lt h

theorem not_lt_trans (a b c : JSNum) (hb : b ≠ JSNum.nan)
    (h1 : JSNum.lt a b = false) (h2 : JSNum.lt b c = false) : JSNum.lt a c = false := by
  cases a <;> cases b <;> cases c <;> simp_all [JSNum.lt]
  exact le_trans h2 h1

theorem eq_of_not_lt (a b : JSNum) (ha : a ≠ JSNum.nan) (hb : b ≠ JSNum.nan)
    (h1 : JSNum.lt a b = false) (h2 : JSNum.lt b a = false) : a = b := by
  cases a <;> cases b <;> simp_all [JSNum.lt]
  exact le_antisymm h2 h1

theorem max2_of_ne_nan (a b : JSNum) (ha : a ≠ JSNum.nan) (hb : b ≠ JSNum.nan) :
    JSNum.max2 a b = if JSNum.lt a b = true then b else a := by
  cases a <;> cases b <;> simp_all [JSNum.max2]

theorem foldl_max2_nan (xs : List JSNum) : xs.foldl JSNum.max2 JSNum.nan = JSNum.nan := by
  induction xs with
  | nil => rfl
  | cons x xs ih => simpa [JSNum.max2] using ih

theorem foldl_max2_of_nan_mem (xs : List JSNum) :
    JSNum.nan ∈ xs → ∀ acc, xs.foldl JSNum.max2 acc = JSNum.nan := by
  induction xs with
  | nil => intro h; cases h
  | cons x xs ih =>
    intro h acc
    rw [List.foldl_cons]
    rcases List.mem_cons.mp h with hx | hx
    · have : JSNum.max2 acc x = JSNum.nan := by
        rw [← hx]
        cases acc <;> rfl
      rw [this, foldl_max2_nan]
    · exact ih hx _

theorem foldl_max2_spec (xs : List JSNum) :
    ∀ acc, acc ≠ JSNum.nan → JSNum.nan ∉ xs →
      xs.foldl JSNum.max2 acc ≠ JSNum.nan ∧
      (xs.foldl JSNum.max2 acc = acc ∨ xs.foldl JSNum.max2 acc ∈ xs) ∧
      JSNum.lt (xs.foldl JSNum.max2 acc) acc = false ∧
      ∀ v ∈ xs, JSNum.lt (xs.foldl JSNum.max2 acc) v = false := by
  induction xs with
  | nil =>
    intro acc hacc _
    exact ⟨hacc, Or.inl rfl, lt_self acc, fun v hv => by cases hv⟩
  | cons x xs ih =>
    intro acc hacc hnan
    have hx : x ≠ JSNum.nan := fun h => hnan (by rw [h]; exact List.mem_cons_self _ _)
    have hxs : JSNum.nan ∉ xs := fun h => hnan (List.mem_cons_of_mem _ h)
    have hstep : JSNum.max2 acc x ≠ JSNum.nan ∧
        (JSNum.max2 acc x = acc ∨ JSNum.max2 acc x = x) ∧
        JSNum.lt (JSNum.max2 acc x) acc = false ∧
        JSNum.lt (JSNum.max2 acc x) x = false := by
      rw [max2_of_ne_nan acc x hacc hx]
      by_cases hlt : JSNum.lt acc x = true
      · rw [if_pos hlt]
        exact ⟨hx, Or.inr rfl, lt_asymm _ _ hlt, lt_self x⟩
      · rw [if_neg hlt]
        exact ⟨hacc, Or.inl rfl, lt_self acc, by simpa using hlt⟩
    obtain ⟨s1, s2, s3, s4⟩ := hstep
    obtain ⟨i1, i2, i3, i4⟩ := ih (JSNum.max2 acc x) s1 hxs
    rw [List.foldl_cons]
    refine ⟨i1, ?_, not_lt_trans _ _ _ s1 i3 s3, ?_⟩
    · rcases i2 with h | h
      · rcases s2 with h' | h'
        · exact Or.inl (h.trans h')
        · exact Or.inr (by rw [h, h']; exact List.mem_cons_self _ _)
      · exact Or.inr (List.mem_cons_of_mem _ h)
    · intro v hv
      rcases List.mem_cons.mp hv with rfl | hv'
      · exact not_lt_trans _ _ _ s1 i3 s4
      · exact i4 v hv'

theorem mathMax_floor_spec (speeds : List JSNum) (hnan : JSNum.nan ∉ speeds) :
    mathMax (speeds ++ [JSNum.fin 0]) ≠ JSNum.nan ∧
    IsMaximumOf (mathMax (speeds ++ [JSNum.fin 0])) (speeds ++ [JSNum.fin 0]) := by
  have hnan0 : JSNum.nan ∉ speeds ++ [JSNum.fin 0] := by
    simp [hnan]
  obtain ⟨h1, h2, _, h4⟩ := foldl_max2_spec (speeds ++ [JSNum.fin 0]) JSNum.ninf
    (by simp) hnan0
  refine ⟨h1, ?_, h4⟩
  rcases h2 with h | h
  · have h0 := h4 (JSNum.fin 0) (by simp)
    rw [h] at h0
    simp [JSNum.lt] at h0
  · exact h

/-- C14, as stated, fails: after one sample whose provider speed is -1 m/s,
`speeds` is `[-3.6]`, its maximum element is -3.6, and `maxSpeed` is 0. -/
theorem maxSpeed_of_negative_speeds :
    (ingest gridDistance Collector.fresh
      [sampleAt 0 (JSVal.num (JSNum.fin (-1))) 1000]).drivingData.speeds
      = [JSNum.fin (-3.6)] ∧
    IsMaximumOf (JSNum.fin (-3.6)) [JSNum.fin (-3.6)] ∧
    (getDrivingMetrics (ingest gridDistance Collector.fresh
      [sampleAt 0 (JSVal.num (JSNum.fin (-1))) 1000])).maxSpeed = JSNum.fin 0 ∧
    ¬ IsMaximumOf (JSNum.fin 0) [JSNum.fin (-3.6)] := by
  have hsp : (ingest gridDistance Collector.fresh
      [sampleAt 0 (JSVal.num (JSNum.fin (-1))) 1000]).drivingData.speeds
      = [JSNum.fin (-3.6)] := by
    rw [ingest_cons, ingest, List.foldl_nil, handleLocationUpdate_speeds,
      currentSpeedOf_of_truthy _ _ _
        (by simp [sampleAt, JSVal.truthy, JSNum.truthy])]
    simp only [sampleAt, JSVal.toNumber, JSNum.mul, Collector.fresh, List.nil_append]
    norm_num
  refine ⟨hsp, ⟨by simp, ?_⟩, ?_, ?_⟩
  · intro v hv
    rw [List.mem_singleton.mp hv]
    exact lt_self _
  · simp only [getDrivingMetrics]
    rw [hsp]
    simp only [mathMax, List.singleton_append, List.foldl, JSNum.max2, JSNum.lt]
    norm_num
  · intro h
    have h1 := h.1
    simp only [List.mem_singleton, JSNum.fin.injEq] at h1
    norm_num at h1

/-- C14, amended: `maxSpeed` is `Math.max(...speeds, 0)`.  When `speeds` holds
no `NaN` it is the maximum of `speeds` together with 0: the maximum element of
`speeds` when some entry is not negative, and 0 when `speeds` is empty or every
entry is negative.  When `speeds` holds a `NaN` it is `NaN`. -/
theorem maxSpeed_is_floored_maximum (c : Collector) :
    (JSNum.nan ∉ c.drivingData.speeds →
      IsMaximumOf (getDrivingMetrics c).maxSpeed (c.drivingData.speeds ++ [JSNum.fin 0])) ∧
    (JSNum.nan ∉ c.drivingData.speeds →
      (∃ v ∈ c.drivingData.speeds, JSNum.lt v (JSNum.fin 0) = false) →
      IsMaximumOf (getDrivingMetrics c).maxSpeed c.drivingData.speeds) ∧
    ((∀ v ∈ c.drivingData.speeds, JSNum.lt v (JSNum.fin 0) = true) →
      (getDrivingMetrics c).maxSpeed = JSNum.fin 0) ∧
    (c.drivingData.speeds = [] → (getDrivingMetrics c).maxSpeed = JSNum.fin 0) ∧
    (JSNum.nan ∈ c.drivingData.speeds → (getDrivingMetrics c).maxSpeed = JSNum.nan) := by
  have hmax : (getDrivingMetrics c).maxSpeed
      = mathMax (c.drivingData.speeds ++ [JSNum.fin 0]) := rfl
  rw [hmax]
  have hneg : (∀ v ∈ c.drivingData.speeds, JSNum.lt v (JSNum.fin 0) = true) →
      mathMax (c.drivingData.speeds ++ [JSNum.fin 0]) = JSNum.fin 0 := by
    intro hall
    have hnan : JSNum.nan ∉ c.drivingData.speeds := by
      intro h
      have := hall _ h
      simp [JSNum.lt] at this
    obtain ⟨_, hmem, hub⟩ := mathMax_floor_spec _ hnan
    rcases List.mem_append.mp hmem with h | h
    · have h1 := hall _ h
      have h2 := hub (JSNum.fin 0) (by simp)
      rw [h1] at h2
      cases h2
    · exact List.mem_singleton.mp h
  refine ⟨fun hnan => (mathMax_floor_spec _ hnan).2, ?_, hneg, ?_, ?_⟩
  · intro hnan ⟨v, hv, hv0⟩
    obtain ⟨hne, hmem, hub⟩ := mathMax_floor_spec _ hnan
    refine ⟨?_, fun w hw => hub w (List.mem_append_left _ hw)⟩
    rcases List.mem_append.mp hmem with h | h
    · exact h
    · have hm : mathMax (c.drivingData.speeds ++ [JSNum.fin 0]) = JSNum.fin 0 :=
        List.mem_singleton.mp h
      have hvne : v ≠ JSNum.nan := fun hvn => hnan (hvn ▸ hv)
      have hle := hub v (List.mem_append_left _ hv)
      rw [hm] at hle
      have hveq : v = JSNum.fin 0 := eq_of_not_lt v (JSNum.fin 0) hvne (by simp) hv0 hle
      rw [hm, ← hveq]
      exact hv
  · intro hempty
    apply hneg
    intro v hv
    rw [hempty] at hv
    cases hv
  · intro hmem
    exact foldl_max2_of_nan_mem _ (List.mem_append_left _ hmem) _

/-- The amended C14 on a state whose `speeds` is `[36, 18]`: `maxSpeed` is the
maximum element of `speeds`. -/
theorem maxSpeed_is_floored_maximum_witness :
    JSNum.nan ∉ ([JSNum.fin 36, JSNum.fin 18] : List JSNum) ∧
    (∃ v ∈ ([JSNum.fin 36, JSNum.fin 18] : List JSNum), JSNum.lt v (JSNum.fin 0) = false) ∧
    IsMaximumOf
      (getDrivingMetrics
        { Collector.fresh with
          drivingData :=
            { Collector.fresh.drivingData with
              speeds := [JSNum.fin 36, JSNum.fin 18] } }).maxSpeed
      [JSNum.fin 36, JSNum.fin 18] := by
  have hnan : JSNum.nan ∉ ([JSNum.fin 36, JSNum.fin 18] : List JSNum) := by simp
  have hex : ∃ v ∈ ([JSNum.fin 36, JSNum.fin 18] : List JSNum),
      JSNum.lt v (JSNum.fin 0) = false :=
    ⟨JSNum.fin 36, by simp, by simp [JSNum.lt]⟩
  exact ⟨hnan, hex, (maxSpeed_is_floored_maximum
    { Collector.fresh with
      drivingData :=
        { Collector.fresh.drivingData with
          speeds := [JSNum.fin 36, JSNum.fin 18] } }).2.1 hnan hex⟩

/-! ### Binary64 rounding -/

theorem roundHalfEven_down (x : ℚ) (f : ℤ) (h1 : (f : ℚ) ≤ x) (h2 : x - f < 1 / 2) :
    roundHalfEven x = f := by
  have hf : ⌊x⌋ = f := Int.floor_eq_iff.mpr ⟨h1, by linarith⟩
  unfold roundHalfEven
  rw [hf, if_pos h2]

theorem roundHalfEven_up (x : ℚ) (f : ℤ) (h1 : 1 / 2 < x - f) (h2 : x < f + 1) :
    roundHalfEven x = f + 1 := by
  have hf : ⌊x⌋ = f := Int.floor_eq_iff.mpr ⟨by linarith, h2⟩
  have h3 : ¬ x - f < 1 / 2 := not_lt.mpr h1.le
  unfold roundHalfEven
  rw [hf, if_neg h3, if_pos h1]

theorem roundHalfEven_tie_even (x : ℚ) (f : ℤ) (h : x = f + 1 / 2) (heven : f % 2 = 0) :
    roundHalfEven x = f := by
  have hf : ⌊x⌋ = f := Int.floor_eq_iff.mpr ⟨by linarith, by linarith⟩
  have h1 : ¬ x - f < 1 / 2 := by rw [h]; norm_num
  have h2 : ¬ 1 / 2 < x - f := by rw [h]; norm_num
  unfold roundHalfEven
  rw [hf, if_neg h1, if_neg h2, if_pos heven]

theorem roundHalfEven_tie_odd (x : ℚ) (f : ℤ) (h : x = f + 1 / 2) (hodd : f % 2 = 1) :
    roundHalfEven x = f + 1 := by
  have hf : ⌊x⌋ = f := Int.floor_eq_iff.mpr ⟨by linarith, by linarith⟩
  have h1 : ¬ x - f < 1 / 2 := by rw [h]; norm_num
  have h2 : ¬ 1 / 2 < x - f := by rw [h]; norm_num
  have hne : ¬ f % 2 = 0 := by omega
  unfold roundHalfEven
  rw [hf, if_neg h1, if_neg h2, if_neg hne]

theorem floor_le_roundHalfEven (x : ℚ) : ⌊x⌋ ≤ roundHalfEven x := by
  unfold roundHalfEven
  split_ifs <;> omega

theorem le_roundHalfEven (x : ℚ) (m : ℤ) (h : (m : ℚ) ≤ x) : m ≤ roundHalfEven x :=
  le_trans (Int.le_floor.mpr h) (floor_le_roundHalfEven x)

theorem log_two_eq (q : ℚ) (k : ℤ) (hq : 0 < q) (hlo : (2 : ℚ) ^ k ≤ q)
    (hhi : q < (2 : ℚ) ^ (k + 1)) : Int.log 2 q = k := by
  have h1 : k ≤ Int.log 2 q := by
    have := (Int.zpow_le_iff_le_log (b := 2) (by norm_num) (x := k) hq).mp
      (by simpa using hlo)
    exact this
  have h2 : Int.log 2 q < k + 1 := by
    have := (Int.lt_zpow_iff_log_lt (b := 2) (by norm_num) (x := k + 1) hq).mp
      (by simpa using hhi)
    exact this
  omega

theorem roundDouble_eq (q : ℚ) (e m : ℤ) (hq : 0 < q) (hlo : (2 : ℚ) ^ (52 + e) ≤ q)
    (hhi : q < (2 : ℚ) ^ (52 + e + 1)) (hround : roundHalfEven (q / 2 ^ e) = m) :
    roundDouble q = m * 2 ^ e := by
  have hlog : Int.log 2 |q| = 52 + e := by
    rw [abs_of_pos hq]
    exact log_two_eq q (52 + e) hq hlo hhi
  have he : Int.log 2 |q| - 52 = e := by omega
  unfold roundDouble
  rw [if_neg hq.ne', he, hround]

theorem roundDouble_eq_of_scaled (q : ℚ) (n : ℕ) (m : ℤ) (hq : 0 < q)
    (hlo : (2 : ℚ) ^ 52 ≤ q * 2 ^ n) (hhi : q * 2 ^ n < (2 : ℚ) ^ 53)
    (hround : roundHalfEven (q * 2 ^ n) = m) : roundDouble q = m / 2 ^ n := by
  have hpos : (0 : ℚ) < 2 ^ n := by positivity
  have hz : (2 : ℚ) ^ (-(n : ℤ)) = 1 / 2 ^ n := by
    rw [zpow_neg, zpow_natCast, one_div]
  have hx : q / 2 ^ (-(n : ℤ)) = q * 2 ^ n := by
    rw [hz]
    field_simp
  have h := roundDouble_eq q (-(n : ℤ)) m hq ?_ ?_ (by rw [hx]; exact hround)
  · rw [h, hz]
    ring
  · rw [zpow_add₀ (by norm_num : (2 : ℚ) ≠ 0), hz]
    have : (2 : ℚ) ^ (52 : ℤ) = 2 ^ 52 := by norm_cast
    rw [this, mul_one_div, div_le_iff₀ hpos]
    exact hlo
  · have h53 : (52 : ℤ) + -(n : ℤ) + 1 = 53 + -(n : ℤ) := by ring
    rw [h53, zpow_add₀ (by norm_num : (2 : ℚ) ≠ 0), hz]
    have : (2 : ℚ) ^ (53 : ℤ) = 2 ^ 53 := by norm_cast
    rw [this, mul_one_div, lt_div_iff₀ hpos]
    exact hhi

theorem roundDouble_ge_of_double (q r : ℚ) (m k : ℤ) (hr : r = m * 2 ^ k)
    (hm1 : (2 : ℤ) ^ 52 ≤ m) (hm2 : m < (2 : ℤ) ^ 53) (hqr : r ≤ q) : r ≤ roundDouble q := by
  have h2k : (0 : ℚ) < 2 ^ k := by positivity
  have hmq : ((2 : ℚ) ^ 52 : ℚ) ≤ (m : ℚ) := by exact_mod_cast hm1
  have hrpos : 0 < r := by
    rw [hr]
    have : (0 : ℚ) < m := lt_of_lt_of_le (by positivity) hmq
    positivity
  have hq : 0 < q := lt_of_lt_of_le hrpos hqr
  have hrlo : (2 : ℚ) ^ (52 + k) ≤ r := by
    rw [hr, zpow_add₀ (by norm_num : (2 : ℚ) ≠ 0)]
    have : (2 : ℚ) ^ (52 : ℤ) = 2 ^ 52 := by norm_cast
    rw [this]
    exact mul_le_mul_of_nonneg_right hmq h2k.le
  have hL : 52 + k ≤ Int.log 2 q :=
    (Int.zpow_le_iff_le_log (b := 2) (by norm_num) hq).mp
      (by simpa using le_trans hrlo hqr)
  have hself : (2 : ℚ) ^ Int.log 2 q ≤ q := by
    simpa using Int.zpow_log_le_self (b := 2) (by norm_num) hq
  unfold roundDouble
  rw [if_neg hq.ne', abs_of_pos hq]
  have h2e : (0 : ℚ) < 2 ^ (Int.log 2 q - 52) := by positivity
  have hx52 : ((2 : ℚ) ^ 52 : ℚ) ≤ q / 2 ^ (Int.log 2 q - 52) := by
    rw [le_div_iff₀ h2e]
    have h52 : (2 : ℚ) ^ 52 = 2 ^ (52 : ℤ) := by norm_cast
    rw [h52, ← zpow_add₀ (by norm_num : (2 : ℚ) ≠ 0)]
    have : (52 : ℤ) + (Int.log 2 q - 52) = Int.log 2 q := by ring
    rw [this]
    exact hself
  rcases eq_or_lt_of_le hL with heq | hlt
  · have he : Int.log 2 q - 52 = k := by omega
    rw [he]
    have hxm : (m : ℚ) ≤ q / 2 ^ k := by
      rw [le_div_iff₀ h2k, ← hr]
      exact hqr
    have hle : m ≤ roundHalfEven (q / 2 ^ k) := le_roundHalfEven _ _ hxm
    rw [hr]
    exact mul_le_mul_of_nonneg_right (by exact_mod_cast hle) h2k.le
  · have hge : (2 : ℤ) ^ 52 ≤ roundHalfEven (q / 2 ^ (Int.log 2 q - 52)) :=
      le_roundHalfEven _ _ (by exact_mod_cast hx52)
    have hge' : ((2 : ℚ) ^ 52 : ℚ) ≤ (roundHalfEven (q / 2 ^ (Int.log 2 q - 52)) : ℚ) := by
      exact_mod_cast hge
    have hk1 : k + 1 ≤ Int.log 2 q - 52 := by omega
    have hpow : (2 : ℚ) ^ (k + 1) ≤ 2 ^ (Int.log 2 q - 52) :=
      zpow_le_zpow_right₀ (by norm_num) hk1
    have hm2q : (m : ℚ) < 2 ^ 53 := by exact_mod_cast hm2
    calc r = m * 2 ^ k := hr
      _ ≤ 2 ^ 53 * 2 ^ k := mul_le_mul_of_nonneg_right hm2q.le h2k.le
      _ = 2 ^ 52 * 2 ^ (k + 1) := by
          rw [zpow_add₀ (by norm_num : (2 : ℚ) ≠ 0)]
          ring
      _ ≤ 2 ^ 52 * 2 ^ (Int.log 2 q - 52) :=
          mul_le_mul_of_nonneg_left hpow (by positivity)
      _ ≤ (roundHalfEven (q / 2 ^ (Int.log 2 q - 52)) : ℚ) * 2 ^ (Int.log 2 q - 52) :=
          mul_le_mul_of_nonneg_right hge' h2e.le

theorem roundDouble_three_tenths : roundDouble 0.3 = 5404319552844595 / 2 ^ 54 := by
  rw [roundDouble_eq_of_scaled 0.3 54 5404319552844595 (by norm_num) (by norm_num)
    (by norm_num) (roundHalfEven_down _ _ (by norm_num) (by norm_num))]
  norm_num

theorem roundDouble_natCast (n : ℕ) (hn : n < 2 ^ 53) : roundDouble (n : ℚ) = n := by
  rcases Nat.eq_zero_or_pos n with h0 | hpos
  · simp [h0, roundDouble]
  have hne : n ≠ 0 := hpos.ne'
  have hL : Nat.log 2 n < 53 := Nat.log_lt_of_lt_pow hne hn
  have hlo : 2 ^ Nat.log 2 n ≤ n := Nat.pow_log_le_self 2 hne
  have hhi : n < 2 ^ (Nat.log 2 n + 1) := Nat.lt_pow_succ_log_self (by norm_num) n
  have hsplit : 2 ^ 52 = 2 ^ (52 - Nat.log 2 n) * 2 ^ Nat.log 2 n := by
    rw [← pow_add]
    congr 1
    omega
  have hp : (0 : ℚ) < 2 ^ (52 - Nat.log 2 n) := by positivity
  have hx : ((n : ℚ) * 2 ^ (52 - Nat.log 2 n))
      = (((n * 2 ^ (52 - Nat.log 2 n) : ℕ) : ℤ) : ℚ) := by
    push_cast
    ring
  rw [roundDouble_eq_of_scaled (n : ℚ) (52 - Nat.log 2 n)
    ((n * 2 ^ (52 - Nat.log 2 n) : ℕ) : ℤ) (by exact_mod_cast hpos) ?_ ?_ ?_]
  · push_cast
    field_simp
  · have h : 2 ^ 52 ≤ n * 2 ^ (52 - Nat.log 2 n) := by
      rw [hsplit, mul_comm]
      exact Nat.mul_le_mul_right _ hlo
    exact_mod_cast h
  · have h : n * 2 ^ (52 - Nat.log 2 n) < 2 ^ 53 := by
      have h53 : 2 ^ 53 = 2 ^ (Nat.log 2 n + 1) * 2 ^ (52 - Nat.log 2 n) := by
        rw [← pow_add]
        congr 1
        omega
      rw [h53]
      exact Nat.mul_lt_mul_of_pos_right hhi (by positivity)
    exact_mod_cast h
  · rw [hx]
    exact roundHalfEven_down _ _ le_rfl (by norm_num)

theorem roundDouble_one_twentieth : roundDouble 0.05 = 3602879701896397 / 2 ^ 56 := by
  rw [roundDouble_eq_of_scaled 0.05 57 7205759403792794 (by norm_num) (by norm_num)
    (by norm_num) (by
      have h := roundHalfEven_up (0.05 * 2 ^ 57) 7205759403792793 (by norm_num) (by norm_num)
      rw [h]
      norm_num)]
  norm_num

theorem roundDouble_one_tenth : roundDouble (100 / 1000) = 3602879701896397 / 2 ^ 55 := by
  rw [roundDouble_eq_of_scaled (100 / 1000) 56 7205759403792794 (by norm_num) (by norm_num)
    (by norm_num) (by
      have h := roundHalfEven_up (100 / 1000 * 2 ^ 56) 7205759403792793 (by norm_num)
        (by norm_num)
      rw [h]
      norm_num)]
  norm_num

theorem roundDouble_one_fifth : roundDouble (200 / 1000) = 3602879701896397 / 2 ^ 54 := by
  rw [roundDouble_eq_of_scaled (200 / 1000) 55 7205759403792794 (by norm_num) (by norm_num)
    (by norm_num) (by
      have h := roundHalfEven_up (200 / 1000 * 2 ^ 55) 7205759403792793 (by norm_num)
        (by norm_num)
      rw [h]
      norm_num)]
  norm_num

theorem roundDouble_sum_tenth_fifth :
    roundDouble (3602879701896397 / 2 ^ 55 + 3602879701896397 / 2 ^ 54)
      = 1351079888211149 / 2 ^ 52 := by
  rw [roundDouble_eq_of_scaled (3602879701896397 / 2 ^ 55 + 3602879701896397 / 2 ^ 54) 54
    5404319552844596 (by norm_num) (by norm_num) (by norm_num) (by
      have h := roundHalfEven_tie_odd
        ((3602879701896397 / 2 ^ 55 + 3602879701896397 / 2 ^ 54) * 2 ^ 54)
        5404319552844595 (by norm_num) (by norm_num)
      rw [h]
      norm_num)]
  norm_num

theorem roundDouble_one_minus_cap :
    roundDouble (1 - 5404319552844595 / 2 ^ 54) = 6305039478318694 / 2 ^ 53 := by
  rw [roundDouble_eq_of_scaled (1 - 5404319552844595 / 2 ^ 54) 53 6305039478318694
    (by norm_num) (by norm_num) (by norm_num)
    (roundHalfEven_tie_even _ _ (by norm_num) (by norm_num))]
  norm_num

theorem roundDouble_minus_both_caps :
    roundDouble (6305039478318694 / 2 ^ 53 - 5404319552844595 / 2 ^ 54)
      = 7205759403792793 / 2 ^ 54 := by
  rw [roundDouble_eq_of_scaled (6305039478318694 / 2 ^ 53 - 5404319552844595 / 2 ^ 54) 54
    7205759403792793 (by norm_num) (by norm_num) (by norm_num)
    (roundHalfEven_down _ _ (by norm_num) (by norm_num))]
  norm_num

theorem roundDouble_fixed_tenth :
    roundDouble (3602879701896397 / 2 ^ 55) = 3602879701896397 / 2 ^ 55 := by
  rw [roundDouble_eq_of_scaled (3602879701896397 / 2 ^ 55) 56 7205759403792794
    (by norm_num) (by norm_num) (by norm_num)
    (roundHalfEven_down _ _ (by norm_num) (by norm_num))]
  norm_num

theorem roundDouble_one : roundDouble 1 = 1 := by
  have h := roundDouble_natCast 1 (by norm_num)
  simpa using h

theorem roundDouble_thousand : roundDouble 1000 = 1000 := by
  have h := roundDouble_natCast 1000 (by norm_num)
  simpa using h

theorem roundDouble_hundred : roundDouble 100 = 100 := by
  have h := roundDouble_natCast 100 (by norm_num)
  simpa using h

theorem roundDouble_two_hundred : roundDouble 200 = 200 := by
  have h := roundDouble_natCast 200 (by norm_num)
  simpa using h

theorem roundDouble_three_hundred : roundDouble 300 = 300 := by
  have h := roundDouble_natCast 300 (by norm_num)
  simpa using h

/-! ### The eco score with both penalties at their cap, in binary64 -/

theorem calculateEcoScore_id (d : Data) :
    Rounded.calculateEcoScore id d = calculateEcoScore d := by
  simp only [Rounded.calculateEcoScore, calculateEcoScore, id]

theorem cap_le_roundDouble (q : ℚ) (h : 5404319552844595 / 2 ^ 54 ≤ q) :
    5404319552844595 / 2 ^ 54 ≤ roundDouble q := by
  refine roundDouble_ge_of_double q (5404319552844595 / 2 ^ 54) 5404319552844595 (-54) ?_
    (by norm_num) (by norm_num) h
  rw [zpow_neg]
  norm_num

theorem six_le_roundDouble (q : ℚ) (h : 6 ≤ q) : 6 ≤ roundDouble q := by
  refine roundDouble_ge_of_double q 6 6755399441055744 (-50) ?_ (by norm_num) (by norm_num) h
  rw [zpow_neg]
  norm_num

/-- C3, amended: once `idleTime` has reached 300 and the harsh events number six
or more, both penalties sit at their cap, the binary64 value of `0.3`, and the
eco score is `1.0 - 0.3 - 0.3` computed in binary64: 7205759403792793 / 2^54,
printed 0.39999999999999997, which is within 10^-16 of 0.4 and is not 0. -/
theorem calculateEcoScore_saturated_binary64 (d : Data) (hidle : 300 ≤ d.idleTime)
    (hharsh : 6 ≤ d.harshAccelerations + d.harshBraking) :
    Rounded.calculateEcoScore roundDouble d = 7205759403792793 / 2 ^ 54 ∧
    Rounded.calculateEcoScore roundDouble d ≠ 0 ∧
    |Rounded.calculateEcoScore roundDouble d - 0.4| < 1 / 10 ^ 16 := by
  have h1 : min (roundDouble (d.idleTime / 300)) (roundDouble 0.3)
      = 5404319552844595 / 2 ^ 54 := by
    rw [roundDouble_three_tenths]
    apply min_eq_right
    apply cap_le_roundDouble
    have : (1 : ℚ) ≤ d.idleTime / 300 := by
      rw [le_div_iff₀ (by norm_num)]
      linarith
    refine le_trans ?_ this
    norm_num
  have hq : (6 : ℚ) ≤ ((d.harshAccelerations + d.harshBraking : ℕ) : ℚ) := by
    exact_mod_cast hharsh
  have h2 : min (roundDouble (roundDouble ((d.harshAccelerations + d.harshBraking : ℕ) : ℚ)
      * roundDouble 0.05)) (roundDouble 0.3) = 5404319552844595 / 2 ^ 54 := by
    rw [roundDouble_three_tenths, roundDouble_one_twentieth]
    apply min_eq_right
    apply cap_le_roundDouble
    have h6 := six_le_roundDouble _ hq
    have : (6 : ℚ) * (3602879701896397 / 2 ^ 56)
        ≤ roundDouble ((d.harshAccelerations + d.harshBraking : ℕ) : ℚ)
          * (3602879701896397 / 2 ^ 56) :=
      mul_le_mul_of_nonneg_right h6 (by norm_num)
    refine le_trans ?_ this
    norm_num
  have hval : Rounded.calculateEcoScore roundDouble d = 7205759403792793 / 2 ^ 54 := by
    simp only [Rounded.calculateEcoScore, h1, h2]
    rw [show (1.0 : ℚ) = 1 by norm_num, roundDouble_one_minus_cap,
      roundDouble_minus_both_caps]
    norm_num
  refine ⟨hval, ?_, ?_⟩
  · rw [hval]
    norm_num
  · rw [hval]
    rw [abs_lt]
    constructor <;> norm_num

/-- The amended C3 at `idleTime = 300`, three harsh accelerations and three
harsh brakings. -/
theorem calculateEcoScore_saturated_binary64_witness :
    Rounded.calculateEcoScore roundDouble saturatedData = 7205759403792793 / 2 ^ 54 :=
  (calculateEcoScore_saturated_binary64 saturatedData (by simp [saturatedData])
    (by simp [saturatedData])).1

/-! ### Idle time accrued over a run, in binary64 -/

theorem updateIdleTime_id (d : Data) (v : JSNum) (t : ℚ) :
    Rounded.updateIdleTime id d v t = updateIdleTime d v t := by
  simp only [Rounded.updateIdleTime, updateIdleTime, id]

theorem idleRun_id (calls : List (JSNum × ℚ)) :
    ∀ d : Data, Rounded.idleRun id d calls = idleRun d calls := by
  induction calls with
  | nil => intro d; rfl
  | cons call calls ih =>
    intro d
    show Rounded.idleRun id (Rounded.updateIdleTime id d call.1 call.2) calls
      = idleRun (updateIdleTime d call.1 call.2) calls
    rw [updateIdleTime_id, ih]

theorem rounded_updateIdleTime_entry (fl : ℚ → ℚ) (d : Data) (v : JSNum) (t : ℚ)
    (hv : JSNum.lt v (JSNum.fin 3) = true) (hi : d.isIdle = false) :
    (Rounded.updateIdleTime fl d v t).idleTime = d.idleTime ∧
    (Rounded.updateIdleTime fl d v t).isIdle = true ∧
    (Rounded.updateIdleTime fl d v t).lastIdleCheck = some t := by
  simp [Rounded.updateIdleTime, hv, hi]

theorem rounded_updateIdleTime_accrue (fl : ℚ → ℚ) (d : Data) (v : JSNum) (t l : ℚ)
    (hv : JSNum.lt v (JSNum.fin 3) = true) (hi : d.isIdle = true)
    (hl : d.lastIdleCheck = some l) (h0 : l ≠ 0) :
    (Rounded.updateIdleTime fl d v t).idleTime
      = fl (d.idleTime + fl (fl (t - l) / 1000)) ∧
    (Rounded.updateIdleTime fl d v t).isIdle = true ∧
    (Rounded.updateIdleTime fl d v t).lastIdleCheck = some t := by
  simp [Rounded.updateIdleTime, hv, hi, hl, h0]

theorem rounded_idleRun_cons (fl : ℚ → ℚ) (d : Data) (call : JSNum × ℚ)
    (calls : List (JSNum × ℚ)) :
    Rounded.idleRun fl d (call :: calls)
      = Rounded.idleRun fl (Rounded.updateIdleTime fl d call.1 call.2) calls :=
  rfl

theorem rounded_idleRun_append_singleton (fl : ℚ → ℚ) (d : Data)
    (calls : List (JSNum × ℚ)) (call : JSNum × ℚ) :
    Rounded.idleRun fl d (calls ++ [call])
      = Rounded.updateIdleTime fl (Rounded.idleRun fl d calls) call.1 call.2 := by
  simp [Rounded.idleRun, List.foldl_append]

theorem rounded_idleRun_while_idle (fl : ℚ → ℚ) (calls : List (JSNum × ℚ)) :
    ∀ (e : Data) (v : JSNum) (l : ℚ), e.isIdle = true → e.lastIdleCheck = some l → l ≠ 0 →
      (∀ call ∈ calls, JSNum.lt call.1 (JSNum.fin 3) = true) →
      (∀ call ∈ calls, call.2 ≠ 0) →
      (Rounded.idleRun fl e calls).idleTime
        = accrue fl e.idleTime (idleDeltas fl (l :: calls.map Prod.snd)) ∧
      (Rounded.idleRun fl e calls).isIdle = true ∧
      (Rounded.idleRun fl e calls).lastIdleCheck = some (calls.getLastD (v, l)).2 ∧
      (calls.getLastD (v, l)).2 ≠ 0 := by
  induction calls with
  | nil =>
    intro e v l hi hl h0 _ _
    exact ⟨rfl, hi, hl, h0⟩
  | cons call calls ih =>
    intro e v l hi hl h0 hslow hnz
    obtain ⟨a1, a2, a3⟩ := rounded_updateIdleTime_accrue fl e call.1 call.2 l
      (hslow call (List.mem_cons_self _ _)) hi hl h0
    obtain ⟨b1, b2, b3, b4⟩ := ih (Rounded.updateIdleTime fl e call.1 call.2) call.1 call.2
      a2 a3 (hnz call (List.mem_cons_self _ _))
      (fun c hc => hslow c (List.mem_cons_of_mem _ hc))
      (fun c hc => hnz c (List.mem_cons_of_mem _ hc))
    rw [rounded_idleRun_cons, List.getLastD_cons]
    refine ⟨?_, b2, b3, b4⟩
    rw [b1, a1]
    rfl

/-- C7, as stated, fails in binary64: three slow calls from the Moving state at
timestamps 1000, 1100 and 1300 leave `idleTime` at 1351079888211149 / 2^52,
printed 0.30000000000000004, where `(1300 - 1000) / 1000` is
5404319552844595 / 2^54, printed 0.3. -/
theorem idleTime_total_differs_from_span :
    Collector.fresh.drivingData.isIdle = false ∧
    (Rounded.idleRun roundDouble Collector.fresh.drivingData
      [(JSNum.fin 0, 1000), (JSNum.fin 0, 1100), (JSNum.fin 0, 1300)]).idleTime
      = 1351079888211149 / 2 ^ 52 ∧
    roundDouble (roundDouble (1300 - 1000) / 1000) = 5404319552844595 / 2 ^ 54 ∧
    (1351079888211149 / 2 ^ 52 : ℚ) ≠ 5404319552844595 / 2 ^ 54 ∧
    (1351079888211149 / 2 ^ 52 : ℚ) ≠ (1300 - 1000) / 1000 := by
  have hslow : JSNum.lt (JSNum.fin 0) (JSNum.fin 3) = true := by
    simp [JSNum.lt]
  obtain ⟨e1, e2, e3⟩ := rounded_updateIdleTime_entry roundDouble
    Collector.fresh.drivingData (JSNum.fin 0) 1000 hslow rfl
  obtain ⟨a1, a2, a3⟩ := rounded_updateIdleTime_accrue roundDouble
    (Rounded.updateIdleTime roundDouble Collector.fresh.drivingData (JSNum.fin 0) 1000)
    (JSNum.fin 0) 1100 1000 hslow e2 e3 (by norm_num)
  obtain ⟨b1, _, _⟩ := rounded_updateIdleTime_accrue roundDouble
    (Rounded.updateIdleTime roundDouble
      (Rounded.updateIdleTime roundDouble Collector.fresh.drivingData (JSNum.fin 0) 1000)
      (JSNum.fin 0) 1100)
    (JSNum.fin 0) 1300 1100 hslow a2 a3 (by norm_num)
  have hfresh : Collector.fresh.drivingData.idleTime = 0 := rfl
  have h2 : (Rounded.updateIdleTime roundDouble
      (Rounded.updateIdleTime roundDouble Collector.fresh.drivingData (JSNum.fin 0) 1000)
      (JSNum.fin 0) 1100).idleTime = 3602879701896397 / 2 ^ 55 := by
    rw [a1, e1, hfresh, show (1100 : ℚ) - 1000 = 100 by norm_num, roundDouble_hundred,
      roundDouble_one_tenth, zero_add, roundDouble_fixed_tenth]
  have h3 : (Rounded.idleRun roundDouble Collector.fresh.drivingData
      [(JSNum.fin 0, 1000), (JSNum.fin 0, 1100), (JSNum.fin 0, 1300)]).idleTime
      = 1351079888211149 / 2 ^ 52 := by
    show (Rounded.updateIdleTime roundDouble
      (Rounded.updateIdleTime roundDouble
        (Rounded.updateIdleTime roundDouble Collector.fresh.drivingData (JSNum.fin 0) 1000)
        (JSNum.fin 0) 1100)
      (JSNum.fin 0) 1300).idleTime = 1351079888211149 / 2 ^ 52
    rw [b1, h2, show (1300 : ℚ) - 1100 = 200 by norm_num, roundDouble_two_hundred,
      roundDouble_one_fifth, roundDouble_sum_tenth_fifth]
  have hspan : roundDouble (roundDouble (1300 - 1000) / 1000)
      = 5404319552844595 / 2 ^ 54 := by
    rw [show (1300 : ℚ) - 1000 = 300 by norm_num, roundDouble_three_hundred,
      show (300 : ℚ) / 1000 = 0.3 by norm_num, roundDouble_three_tenths]
  exact ⟨rfl, h3, hspan, by norm_num, by norm_num⟩

/-- C7, amended: from the Moving state, a run of calls of `updateIdleTime` with
speeds below 3 and non-zero timestamps accrues nothing on its first call and
accrues on each later call the time since the call before it, so that
`idleTime` ends as its initial value plus the deltas between consecutive
timestamps added one at a time in call order, every difference, quotient and
sum rounded by `fl`; with no rounding that total is the initial value plus the
last timestamp minus the first, over 1000. -/
theorem idleRun_accrues_deltas (fl : ℚ → ℚ) (d : Data) (v1 : JSNum) (t1 : ℚ)
    (rest : List (JSNum × ℚ)) (hmoving : d.isIdle = false)
    (hslow : ∀ call ∈ (v1, t1) :: rest, JSNum.lt call.1 (JSNum.fin 3) = true)
    (hnz : ∀ call ∈ (v1, t1) :: rest, call.2 ≠ 0) :
    (Rounded.updateIdleTime fl d v1 t1).idleTime = d.idleTime ∧
    (Rounded.idleRun fl d ((v1, t1) :: rest)).idleTime
      = accrue fl d.idleTime (idleDeltas fl (t1 :: rest.map Prod.snd)) ∧
    (∀ (pre post : List (JSNum × ℚ)) (call : JSNum × ℚ), rest = pre ++ call :: post →
      (Rounded.idleRun fl d ((v1, t1) :: (pre ++ [call]))).idleTime
        = fl ((Rounded.idleRun fl d ((v1, t1) :: pre)).idleTime
            + fl (fl (call.2 - (pre.getLastD (v1, t1)).2) / 1000))) ∧
    (Rounded.idleRun id d ((v1, t1) :: rest)).idleTime
      = d.idleTime + ((rest.getLastD (v1, t1)).2 - t1) / 1000 := by
  obtain ⟨e1, e2, e3⟩ := rounded_updateIdleTime_entry fl d v1 t1
    (hslow (v1, t1) (List.mem_cons_self _ _)) hmoving
  have hz : t1 ≠ 0 := hnz (v1, t1) (List.mem_cons_self _ _)
  refine ⟨e1, ?_, ?_, ?_⟩
  · obtain ⟨b1, _, _, _⟩ := rounded_idleRun_while_idle fl rest
      (Rounded.updateIdleTime fl d v1 t1) v1 t1 e2 e3 hz
      (fun c hc => hslow c (List.mem_cons_of_mem _ hc))
      (fun c hc => hnz c (List.mem_cons_of_mem _ hc))
    rw [rounded_idleRun_cons, b1, e1]
  · intro pre post call hrest
    have hpre : ∀ c ∈ pre, c ∈ rest := by
      intro c hc
      rw [hrest]
      exact List.mem_append_left _ hc
    have hcall : call ∈ rest := by
      rw [hrest]
      exact List.mem_append_right _ (List.mem_cons_self _ _)
    obtain ⟨_, b2, b3, b4⟩ := rounded_idleRun_while_idle fl pre
      (Rounded.updateIdleTime fl d v1 t1) v1 t1 e2 e3 hz
      (fun c hc => hslow c (List.mem_cons_of_mem _ (hpre c hc)))
      (fun c hc => hnz c (List.mem_cons_of_mem _ (hpre c hc)))
    obtain ⟨a1, _, _⟩ := rounded_updateIdleTime_accrue fl
      (Rounded.idleRun fl (Rounded.updateIdleTime fl d v1 t1) pre)
      call.1 call.2 _ (hslow call (List.mem_cons_of_mem _ hcall)) b2 b3 b4
    rw [← List.cons_append, rounded_idleRun_append_singleton, rounded_idleRun_cons, a1]
  · rw [idleRun_id]
    exact (idleRun_accrues d v1 t1 rest hmoving hslow hnz).2.1

theorem tickCalls_slow (n : ℕ) :
    ∀ start : ℕ, ∀ call ∈ tickCalls start n, JSNum.lt call.1 (JSNum.fin 3) = true := by
  induction n with
  | zero => intro start call hc; cases hc
  | succ n ih =>
    intro start call hc
    rcases List.mem_cons.mp hc with rfl | h
    · simp [JSNum.lt]
    · exact ih _ call h

theorem tickCalls_nonzero (n : ℕ) :
    ∀ start : ℕ, 0 < start → ∀ call ∈ tickCalls start n, call.2 ≠ 0 := by
  induction n with
  | zero => intro start _ call hc; cases hc
  | succ n ih =>
    intro start hstart call hc
    rcases List.mem_cons.mp hc with rfl | h
    · simp only [ne_eq, Nat.cast_eq_zero]
      omega
    · exact ih _ (Nat.succ_pos _) call h

theorem tickCalls_length (n : ℕ) : ∀ start : ℕ, (tickCalls start n).length = n := by
  induction n with
  | zero => intro start; rfl
  | succ n ih => intro start; simp [tickCalls, ih]

theorem idleDeltas_tickCalls (n : ℕ) :
    ∀ start : ℕ, idleDeltas roundDouble
      (((1000 * start : ℕ) : ℚ) :: (tickCalls (start + 1) n).map Prod.snd)
      = List.replicate n 1 := by
  induction n with
  | zero => intro start; rfl
  | succ n ih =>
    intro start
    have hstep : (((1000 * (start + 1) : ℕ) : ℚ)) - ((1000 * start : ℕ) : ℚ) = 1000 := by
      push_cast
      ring
    show roundDouble (roundDouble ((((1000 * (start + 1) : ℕ) : ℚ))
        - ((1000 * start : ℕ) : ℚ)) / 1000)
      :: idleDeltas roundDouble
        (((1000 * (start + 1) : ℕ) : ℚ) :: (tickCalls (start + 1 + 1) n).map Prod.snd)
      = 1 :: List.replicate n 1
    rw [hstep, roundDouble_thousand, show (1000 : ℚ) / 1000 = 1 by norm_num,
      roundDouble_one, ih]

theorem accrue_ones (n : ℕ) :
    ∀ k : ℕ, k + n < 2 ^ 53 →
      accrue roundDouble (k : ℚ) (List.replicate n 1) = ((k + n : ℕ) : ℚ) := by
  induction n with
  | zero => intro k _; rfl
  | succ n ih =>
    intro k hk
    have hfl : roundDouble ((k : ℚ) + 1) = ((k + 1 : ℕ) : ℚ) := by
      have h := roundDouble_natCast (k + 1) (by omega)
      rw [← h]
      push_cast
      rfl
    show accrue roundDouble (roundDouble ((k : ℚ) + 1)) (List.replicate n 1)
      = ((k + (n + 1) : ℕ) : ℚ)
    rw [hfl, ih (k + 1) (by omega)]
    congr 1
    omega

/-- The amended C7 on 301 calls one second apart at speed 0, in binary64:
`idleTime` ends at 300 and the idle penalty `min(idleTime / 300, 0.3)` is the
binary64 value of `0.3`. -/
theorem idleRun_accrues_deltas_witness :
    (tickCalls 1 301).length = 301 ∧
    (Rounded.idleRun roundDouble Collector.fresh.drivingData (tickCalls 1 301)).idleTime
      = 300 ∧
    min (roundDouble ((Rounded.idleRun roundDouble Collector.fresh.drivingData
      (tickCalls 1 301)).idleTime / 300)) (roundDouble 0.3) = roundDouble 0.3 := by
  have hrun := (idleRun_accrues_deltas roundDouble Collector.fresh.drivingData (JSNum.fin 0)
    ((1000 * 1 : ℕ) : ℚ) (tickCalls 2 300) rfl
    (tickCalls_slow 301 1) (tickCalls_nonzero 301 1 (by norm_num))).2.1
  rw [idleDeltas_tickCalls 300 1] at hrun
  have hzero : Collector.fresh.drivingData.idleTime = ((0 : ℕ) : ℚ) := by
    simp [Collector.fresh]
  rw [hzero, accrue_ones 300 0 (by norm_num)] at hrun
  have h300 : (Rounded.idleRun roundDouble Collector.fresh.drivingData
      (tickCalls 1 301)).idleTime = 300 := by
    rw [show tickCalls 1 301 = (JSNum.fin 0, ((1000 * 1 : ℕ) : ℚ)) :: tickCalls 2 300
      from rfl, hrun]
    norm_num
  refine ⟨tickCalls_length 301 1, h300, ?_⟩
  rw [h300, show (300 : ℚ) / 300 = 1 by norm_num, roundDouble_one,
    roundDouble_three_tenths]
  apply min_eq_right
  norm_num

end DrivingData
